import Mathlib

/-!
# Rotation scheduler of `deepstream_interpipe.cpp`

A shallow embedding of the control loop of `main` in
`src/deepstream-interpipe/deepstream_interpipe.cpp`: the four `interpipesrc`
slots of the inference pipeline, the eight-entry table `pipe[]` of RTSP
streamer pipelines, the counter `listen_to_num_base`, the drain loop that
compares `tv_now` with `tv_infer`, and the clean-up after `g_main_loop_run`.

The GStreamer calls are observable commands: every function of the model
returns the new program state together with the list of commands it issued.
The outside world (what `gst_parse_launch` returns, what `gettimeofday`
returns, what the probe last wrote into `tv_infer`) is an explicit `World`.
-/

namespace DeepstreamInterpipe

/-! ## Constants of the source -/

/-- The macro `MUXER_BATCH_SIZE`. -/
def MUXER_BATCH_SIZE : Nat := 4

/-- The macro `MUXER_BATCH_TIMEOUT_USEC`. -/
def MUXER_BATCH_TIMEOUT_USEC : Int := 40000

/-- The macro `PIPE_NUM`: number of `interpipesrc` slots. -/
def PIPE_NUM : Nat := 4

/-- The macro `PIPE_NUM_2`: size of the table `pipe[]`. -/
def PIPE_NUM_2 : Nat := 8

/-- Number of RTSP command templates, the bound `3` of both launch loops. -/
def RTSP_NUM : Nat := 3

/-- The bound `100` of the loop `for (size_t j = 0; j < 100; j++)`. -/
def CYCLES : Nat := 100

/-- Arithmetic on `size_t` is modulo `2 ^ 64`. -/
def SIZE_T_MOD : Nat := 2 ^ 64

/-! ## Data model -/

/-- A non-null `GstElement *` returned by `gst_parse_launch`. -/
abbrev Handle := Nat

/-- The C type `struct timeval`; both fields are signed 64-bit integers. -/
structure Timeval where
  tv_sec : Int
  tv_usec : Int
deriving DecidableEq, Repr

/-- The two target states passed to `gst_element_set_state`. -/
inductive GstState where
  | GST_STATE_NULL
  | GST_STATE_PLAYING
deriving DecidableEq, Repr

/-- Commands issued by `main`, in program order. -/
inductive Event where
  /-- The call `sleep(sec)`. -/
  | sleep (sec : Nat)
  /-- The call `g_object_set(interpipesrc[slot], "listen-to", name, NULL)`. -/
  | listenTo (slot : Nat) (name : Option String)
  /-- One pass of the drain loop: `gettimeofday(&tv_now)`, `usleep`, and the
  loop condition evaluated on `tv_now` and `tv_infer` with result `again`. -/
  | poll (now infer : Timeval) (again : Bool)
  /-- The assignment `pipe[idx] = gst_parse_launch(cmd, NULL)` where `cmd` is
  template `tmpl` instantiated with `name`; `old` is the entry `pipe[idx]`
  held just before the assignment and `new` the returned pointer. -/
  | launch (tmpl : Nat) (name : String) (idx : Nat) (old new : Option Handle)
  /-- The call `gst_element_set_state(h, st)` on an entry of `pipe[]`. -/
  | setState (h : Option Handle) (st : GstState)
  /-- The call `gst_object_unref` on an entry of `pipe[]`. -/
  | unref (h : Handle)
  /-- The call `gst_element_set_state(pipe_infer, st)`. -/
  | inferSetState (st : GstState)
  /-- The call `gst_object_unref(GST_OBJECT(pipe_infer))`. -/
  | inferUnref
  /-- The call `g_main_loop_run(loop)`, which returns on the stop. -/
  | mainLoopRun
deriving DecidableEq, Repr

/-- The environment of one run. -/
structure World where
  /-- Result of the `n`-th call of `gst_parse_launch` (`none` is `NULL`). -/
  launch : Nat → Option Handle
  /-- Value stored in `tv_now` by the `n`-th `gettimeofday(&tv_now, NULL)`. -/
  clock : Nat → Timeval
  /-- Value of `tv_infer` read by the `n`-th evaluation of the loop condition. -/
  heartbeat : Nat → Timeval

/-- The variables of `main` that the scheduler reads and writes. -/
structure State where
  /-- The variable `listen_to_num_base`. -/
  listen_to_num_base : Nat
  /-- The property `listen-to` of `interpipesrc[i]` (`none` is `NULL`). -/
  listenTo : Nat → Option String
  /-- The table `pipe[PIPE_NUM_2]` (`none` is `NULL`). -/
  pipe : Nat → Option Handle
  /-- Number of calls of `gst_parse_launch` made so far. -/
  launches : Nat
  /-- Number of passes of the drain loop made so far. -/
  polls : Nat

/-- Array store `f[i] = v`. -/
def setAt {α : Type} (f : Nat → α) (i : Nat) (v : α) : Nat → α :=
  fun j => if j = i then v else f j

/-- The format `%02lu`. -/
def twoDigits (n : Nat) : String :=
  if n < 10 then "0" ++ toString n else toString n

/-- The name built by `g_snprintf(.., "%s-%02lu", "interpipe", n)`. -/
def interpipeName (n : Nat) : String := "interpipe" ++ "-" ++ twoDigits n

/-- The index `(listen_to_num_base + off) % (2 * MUXER_BATCH_SIZE)` on `size_t`. -/
def chanIdx (base off : Nat) : Nat :=
  ((base + off) % SIZE_T_MOD) % (2 * MUXER_BATCH_SIZE)

/-- A counted loop `for (size_t i = 0; i < n; i++) body(i)`. -/
def forLoop (body : Nat → State → State × List Event) :
    Nat → State → State × List Event
  | 0, s => (s, [])
  | n + 1, s =>
    let r := forLoop body n s
    let r2 := body n r.1
    (r2.1, r.2 ++ r2.2)

/-! ## Start-up -/

/-- The declarations of `main`: base `0`, `pipe[] = {NULL}`; the slots have
no `listen-to` before `create_sink_pipeline` sets it. -/
def initState : State :=
  { listen_to_num_base := 0, listenTo := fun _ => none, pipe := fun _ => none,
    launches := 0, polls := 0 }

/-- Body of the loop of `create_sink_pipeline` that sets `listen-to` of
`interpipesrc[i]` to `interpipe-%02lu` of `i`. -/
def listenInit (i : Nat) (s : State) : State × List Event :=
  ({ s with listenTo := setAt s.listenTo i (some (interpipeName i)) },
   [Event.listenTo i (some (interpipeName i))])

/-- Body of the first launch loop of `main`: the name uses
`(listen_to_num_base + i) % 8`, the pointer is stored in `pipe[i]`. -/
def launchFirst (w : World) (i : Nat) (s : State) : State × List Event :=
  let h := w.launch s.launches
  ({ s with pipe := setAt s.pipe i h, launches := s.launches + 1 },
   [Event.launch i (interpipeName (chanIdx s.listen_to_num_base i)) i (s.pipe i) h,
    Event.setState h GstState.GST_STATE_PLAYING])

/-- Everything `main` does before the rotation loop. -/
def startUp (w : World) : State × List Event :=
  let r1 := forLoop listenInit PIPE_NUM initState
  let r2 := forLoop (launchFirst w) RTSP_NUM r1.1
  (r2.1, r1.2 ++ [Event.sleep 1] ++ r2.2 ++ [Event.inferSetState GstState.GST_STATE_PLAYING])

/-! ## One rotation cycle -/

/-- The statement `g_object_set(interpipesrc[i], "listen-to", NULL, NULL)`. -/
def unsubscribe (i : Nat) (s : State) : State × List Event :=
  ({ s with listenTo := setAt s.listenTo i none }, [Event.listenTo i none])

/-- One pass of the loop `for (i = 0; i < PIPE_NUM; i++, listen_to_num_base++)`:
the body, then the increment of `listen_to_num_base`. -/
def unsubscribeStep (i : Nat) (s : State) : State × List Event :=
  let r := unsubscribe i s
  ({ r.1 with listen_to_num_base := (r.1.listen_to_num_base + 1) % SIZE_T_MOD }, r.2)

/-- Wrap-around of a signed 64-bit integer. -/
def wrap64 (x : Int) : Int := (x + 2 ^ 63) % 2 ^ 64 - 2 ^ 63

/-- The expression `(tv_now.tv_sec - tv_infer.tv_sec) * 1000000 +
(tv_now.tv_usec - tv_infer.tv_usec)` on signed 64-bit integers. -/
def elapsedUsec (now infer : Timeval) : Int :=
  wrap64 (wrap64 (wrap64 (now.tv_sec - infer.tv_sec) * 1000000)
    + wrap64 (now.tv_usec - infer.tv_usec))

/-- The condition of the `do ... while` loop:
`elapsed < MUXER_BATCH_TIMEOUT_USEC * 5`. -/
def pollAgain (now infer : Timeval) : Bool :=
  decide (elapsedUsec now infer < MUXER_BATCH_TIMEOUT_USEC * 5)

/-- The `do ... while` loop, starting at pass number `n`; `fuel` bounds the
number of passes, and `none` means that the loop is still polling after
`fuel` passes. The result is the number of the next pass and the passes made. -/
def drainLoop (w : World) : Nat → Nat → Option (Nat × List Event)
  | 0, _ => none
  | fuel + 1, n =>
    if pollAgain (w.clock n) (w.heartbeat n) then
      (drainLoop w fuel (n + 1)).map
        (fun r => (r.1, Event.poll (w.clock n) (w.heartbeat n) true :: r.2))
    else
      some (n + 1, [Event.poll (w.clock n) (w.heartbeat n) false])

/-- Body of the launch loop of a cycle: the name and the table index are both
`(listen_to_num_base + i) % 8`; the returned pointer is stored unchecked. -/
def launchStep (w : World) (i : Nat) (s : State) : State × List Event :=
  let idx := chanIdx s.listen_to_num_base i
  let h := w.launch s.launches
  ({ s with pipe := setAt s.pipe idx h, launches := s.launches + 1 },
   [Event.launch i (interpipeName idx) idx (s.pipe idx) h,
    Event.setState h GstState.GST_STATE_PLAYING])

/-- Guarded statement `if (pipe[idx]) gst_element_set_state(pipe[idx], NULL)`. -/
def stopAt (idx : Nat) (s : State) : State × List Event :=
  match s.pipe idx with
  | some h => (s, [Event.setState (some h) GstState.GST_STATE_NULL])
  | none => (s, [])

/-- Guarded statement `if (pipe[idx]) { gst_object_unref(pipe[idx]);
pipe[idx] = NULL; }`. -/
def unrefAt (idx : Nat) (s : State) : State × List Event :=
  match s.pipe idx with
  | some h => ({ s with pipe := setAt s.pipe idx none }, [Event.unref h])
  | none => (s, [])

/-- Body of the first "destroy older" loop, at index
`(listen_to_num_base + i + PIPE_NUM) % 8`. -/
def stopOlderStep (i : Nat) (s : State) : State × List Event :=
  stopAt (chanIdx s.listen_to_num_base (i + PIPE_NUM)) s

/-- Body of the second "destroy older" loop, at the same index. -/
def unrefOlderStep (i : Nat) (s : State) : State × List Event :=
  unrefAt (chanIdx s.listen_to_num_base (i + PIPE_NUM)) s

/-- Body of the resubscription loop: slot `i` listens to
`interpipe-%02lu` of `(listen_to_num_base + i) % 8`. -/
def resubscribeStep (i : Nat) (s : State) : State × List Event :=
  let name := interpipeName (chanIdx s.listen_to_num_base i)
  ({ s with listenTo := setAt s.listenTo i (some name) }, [Event.listenTo i (some name)])

/-- The part of a cycle before the drain loop: `sleep(5)` and the
unsubscription loop. -/
def unsubscribePhase (s : State) : State × List Event :=
  let r := forLoop unsubscribeStep PIPE_NUM s
  (r.1, Event.sleep 5 :: r.2)

/-- The part of a cycle after the drain loop: launch, destroy older,
`sleep(3)`, resubscribe. -/
def swapPhase (w : World) (s : State) : State × List Event :=
  let r1 := forLoop (launchStep w) RTSP_NUM s
  let r2 := forLoop stopOlderStep PIPE_NUM r1.1
  let r3 := forLoop unrefOlderStep PIPE_NUM r2.1
  let r4 := forLoop resubscribeStep PIPE_NUM r3.1
  (r4.1, r1.2 ++ r2.2 ++ r3.2 ++ [Event.sleep 3] ++ r4.2)

/-- The counter of drain-loop passes after the loop made passes up to `n`. -/
def setPolls (s : State) (n : Nat) : State :=
  { listen_to_num_base := s.listen_to_num_base, listenTo := s.listenTo, pipe := s.pipe,
    launches := s.launches, polls := n }

/-- The body of the loop over `j`: one rotation cycle. The result is `none`
when the drain loop is still polling after `fuel` passes. -/
def rotationCycle (w : World) (fuel : Nat) (s : State) : Option (State × List Event) :=
  let r1 := unsubscribePhase s
  match drainLoop w fuel r1.1.polls with
  | none => none
  | some (n, l2) =>
    let r3 := swapPhase w (setPolls r1.1 n)
    some (r3.1, r1.2 ++ l2 ++ r3.2)

/-- The first `k` passes of the loop over `j`. -/
def runCycles (w : World) (fuel : Nat) : Nat → State → Option (State × List Event)
  | 0, s => some (s, [])
  | k + 1, s =>
    match runCycles w fuel k s with
    | none => none
    | some (s1, l1) =>
      match rotationCycle w fuel s1 with
      | none => none
      | some (s2, l2) => some (s2, l1 ++ l2)

/-! ## Clean-up and the whole program -/

/-- Body of the first clean-up loop over `pipe[i]`. -/
def stopStep (i : Nat) (s : State) : State × List Event := stopAt i s

/-- Body of the second clean-up loop over `pipe[i]`. -/
def unrefStep (i : Nat) (s : State) : State × List Event := unrefAt i s

/-- What `main` does from `g_main_loop_run` to its end. -/
def teardown (s : State) : State × List Event :=
  let r1 := forLoop stopStep PIPE_NUM_2 s
  let r2 := forLoop unrefStep PIPE_NUM_2 r1.1
  (r2.1, [Event.mainLoopRun, Event.inferSetState GstState.GST_STATE_NULL] ++ r1.2
    ++ [Event.inferUnref] ++ r2.2)

/-- The loop `for (size_t j = 0; j < 100; j++)`. -/
def mainLoop (w : World) (fuel : Nat) (s : State) : Option (State × List Event) :=
  runCycles w fuel CYCLES s

/-- The function `main`: start-up, the rotation loop, clean-up. -/
def main (w : World) (fuel : Nat) : Option (State × List Event) :=
  let r0 := startUp w
  match mainLoop w fuel r0.1 with
  | none => none
  | some (s1, l1) =>
    let r2 := teardown s1
    some (r2.1, r0.2 ++ l1 ++ r2.2)

/-! ## Predicates used in the statements -/

/-- State between cycles, after `k` completed cycles: the base is `4 * k`,
slot `i` listens to channel `(4 * k + i) % 8`, and a table entry is non-null
only at the three indices `(4 * k + i) % 8`, `i < 3`. -/
def GenInv (k : Nat) (s : State) : Prop :=
  s.listen_to_num_base = (4 * k) % SIZE_T_MOD ∧
  (∀ i, i < 4 → s.listenTo i = some (interpipeName ((4 * k + i) % 8))) ∧
  (∀ c, s.pipe c ≠ none → ∃ i, i < 3 ∧ c = (4 * k + i) % 8)

/-- Every drain wait of the run ends within `fuel` passes: from every pass
number on, one of the next `fuel` passes finds the loop condition false. -/
def DrainsWithin (w : World) (fuel : Nat) : Prop :=
  ∀ n, ∃ m, m < fuel ∧ pollAgain (w.clock (n + m)) (w.heartbeat (n + m)) = false

/-- A run in which every launch returns a fresh pointer and every drain wait
ends on its first pass (the heartbeat is one second old). -/
def steadyWorld : World :=
  { launch := fun n => some n, clock := fun _ => ⟨1, 0⟩, heartbeat := fun _ => ⟨0, 0⟩ }

/-- The channels, out of the eight of the namespace, that have both a live
producer (`pipe[c]` non-null; the pipeline stored in `pipe[c]` is launched
with `interpipesink name=interpipe-%02lu` of `c`) and a slot whose `listen-to`
is their name. -/
def pairedChannels (s : State) : List Nat :=
  (List.range PIPE_NUM_2).filter (fun c =>
    (s.pipe c).isSome && (List.range PIPE_NUM).any (fun i => s.listenTo i == some (interpipeName c)))

/-- Microseconds since the epoch of a timestamp, as an unbounded integer. -/
def usecOf (tv : Timeval) : Int := tv.tv_sec * 1000000 + tv.tv_usec

/-- The true heartbeat age: `now - infer` in microseconds, as an unbounded integer. -/
def ageUsec (now infer : Timeval) : Int := usecOf now - usecOf infer

/-- Both timestamps are normalised (`0 ≤ tv_usec < 1000000`) and their seconds
differ by less than `2 ^ 63 / 1000000`, so that the signed 64-bit expression of
the loop condition does not overflow. -/
def SampleOk (now infer : Timeval) : Prop :=
  (0 ≤ now.tv_usec ∧ now.tv_usec < 1000000) ∧ (0 ≤ infer.tv_usec ∧ infer.tv_usec < 1000000) ∧
  (-9223372036853 ≤ now.tv_sec - infer.tv_sec ∧ now.tv_sec - infer.tv_sec ≤ 9223372036853)

/-- A run whose heartbeat was last written at `5.900000` and whose clock reads
`6.000000`, `6.050000`, `6.100000`, ... on successive passes. -/
def borrowWorld : World :=
  { launch := fun n => some n,
    clock := fun j => ⟨6, 50000 * (j : Int)⟩,
    heartbeat := fun _ => ⟨5, 900000⟩ }

/-- A run whose heartbeat stays at `0.000000` and whose clock advances by
`MUXER_BATCH_TIMEOUT_USEC` on every pass, starting at `0.000000`. -/
def tickWorld : World :=
  { launch := fun n => some n,
    clock := fun j => ⟨(40000 * (j : Int)) / 1000000, (40000 * (j : Int)) % 1000000⟩,
    heartbeat := fun _ => ⟨0, 0⟩ }

/-- A run whose heartbeat is rewritten before every pass: each pass reads a
clock of `7.000100` and a heartbeat of `7.000000`. -/
def freshWorld : World :=
  { launch := fun n => some n, clock := fun _ => ⟨7, 100⟩, heartbeat := fun _ => ⟨7, 0⟩ }

/-- A run in which the first launch of the first rotation cycle (the fourth
call of `gst_parse_launch`) returns `NULL`; every drain wait ends on its
first pass. -/
def failWorld : World :=
  { launch := fun n => if n = 3 then none else some n,
    clock := fun _ => ⟨1, 0⟩, heartbeat := fun _ => ⟨0, 0⟩ }

/-- Number of rotation cycles begun in a command list: each cycle begins
with its `sleep(5)`, which occurs nowhere else. -/
def cyclesStarted (log : List Event) : Nat := log.count (Event.sleep 5)

/-- The indices of the table `pipe[PIPE_NUM_2]` that hold a non-null pointer. -/
def liveIndices (s : State) : List Nat :=
  (List.range PIPE_NUM_2).filter (fun c => (s.pipe c).isSome)

/-- The indices of the table `pipe[PIPE_NUM_2]` that hold `NULL`. -/
def nullIndices (s : State) : List Nat :=
  (List.range PIPE_NUM_2).filter (fun c => (s.pipe c).isNone)

/-! ## State after each phase -/

theorem setPolls_base (s : State) (n : Nat) :
    (setPolls s n).listen_to_num_base = s.listen_to_num_base := rfl

theorem setPolls_listenTo (s : State) (n : Nat) : (setPolls s n).listenTo = s.listenTo := rfl

theorem setPolls_pipe (s : State) (n : Nat) : (setPolls s n).pipe = s.pipe := rfl

theorem setPolls_launches (s : State) (n : Nat) : (setPolls s n).launches = s.launches := rfl

theorem setPolls_polls (s : State) (n : Nat) : (setPolls s n).polls = n := rfl

theorem stopAt_state (idx : Nat) (s : State) : (stopAt idx s).1 = s := by
  unfold stopAt; split <;> rfl

theorem unrefAt_pipe (idx : Nat) (s : State) (c : Nat) :
    (unrefAt idx s).1.pipe c = if c = idx then none else s.pipe c := by
  unfold unrefAt
  split
  · simp [setAt]
  · rename_i h
    by_cases hc : c = idx
    · simp [hc, h]
    · simp [hc]

theorem unrefAt_fields (idx : Nat) (s : State) :
    (unrefAt idx s).1.listen_to_num_base = s.listen_to_num_base ∧
    (unrefAt idx s).1.listenTo = s.listenTo ∧
    (unrefAt idx s).1.launches = s.launches ∧
    (unrefAt idx s).1.polls = s.polls := by
  unfold unrefAt; split <;> simp

theorem unsubscribePhase_base (s : State) :
    (unsubscribePhase s).1.listen_to_num_base = (s.listen_to_num_base + 4) % SIZE_T_MOD := by
  simp [unsubscribePhase, forLoop, unsubscribeStep, unsubscribe, PIPE_NUM, SIZE_T_MOD]

theorem unsubscribePhase_listenTo (s : State) (i : Nat) :
    (unsubscribePhase s).1.listenTo i = if i < 4 then none else s.listenTo i := by
  simp [unsubscribePhase, forLoop, unsubscribeStep, unsubscribe, PIPE_NUM, setAt]
  split_ifs <;> first | rfl | omega

theorem unsubscribePhase_fields (s : State) :
    (unsubscribePhase s).1.pipe = s.pipe ∧
    (unsubscribePhase s).1.launches = s.launches ∧
    (unsubscribePhase s).1.polls = s.polls := by
  simp [unsubscribePhase, forLoop, unsubscribeStep, unsubscribe, PIPE_NUM]

theorem swapPhase_base (w : World) (s : State) :
    (swapPhase w s).1.listen_to_num_base = s.listen_to_num_base := by
  simp [swapPhase, forLoop, launchStep, stopOlderStep, unrefOlderStep, resubscribeStep,
    PIPE_NUM, RTSP_NUM, stopAt_state, unrefAt_fields]

theorem swapPhase_listenTo (w : World) (s : State) (i : Nat) :
    (swapPhase w s).1.listenTo i =
      if i < 4 then some (interpipeName (chanIdx s.listen_to_num_base i)) else s.listenTo i := by
  simp [swapPhase, forLoop, launchStep, stopOlderStep, unrefOlderStep, resubscribeStep,
    PIPE_NUM, RTSP_NUM, stopAt_state, unrefAt_fields, setAt]
  split_ifs <;> first | rfl | omega | (subst_vars; rfl)

theorem swapPhase_pipe (w : World) (s : State) (c : Nat) :
    (swapPhase w s).1.pipe c =
      if c = chanIdx s.listen_to_num_base 4 ∨ c = chanIdx s.listen_to_num_base 5 ∨
          c = chanIdx s.listen_to_num_base 6 ∨ c = chanIdx s.listen_to_num_base 7 then none
      else if c = chanIdx s.listen_to_num_base 2 then w.launch (s.launches + 2)
      else if c = chanIdx s.listen_to_num_base 1 then w.launch (s.launches + 1)
      else if c = chanIdx s.listen_to_num_base 0 then w.launch s.launches
      else s.pipe c := by
  simp [swapPhase, forLoop, launchStep, stopOlderStep, unrefOlderStep, resubscribeStep,
    PIPE_NUM, RTSP_NUM, stopAt_state, unrefAt_fields, unrefAt_pipe, setAt]
  split_ifs <;> first | rfl | omega

/-! ## The generation invariant -/

theorem chanIdx_gen (k i : Nat) : chanIdx ((4 * k) % SIZE_T_MOD) i = (4 * k + i) % 8 := by
  unfold chanIdx SIZE_T_MOD MUXER_BATCH_SIZE
  omega

theorem startUp_inv (w : World) : GenInv 0 (startUp w).1 := by
  refine ⟨?_, ?_, ?_⟩
  · simp [startUp, forLoop, listenInit, launchFirst, initState, PIPE_NUM, RTSP_NUM]
  · intro i hi
    have h : i = 0 ∨ i = 1 ∨ i = 2 ∨ i = 3 := by omega
    rcases h with h | h | h | h <;> subst h <;>
      simp [startUp, forLoop, listenInit, launchFirst, initState, PIPE_NUM, RTSP_NUM, setAt]
  · intro c hc
    simp [startUp, forLoop, listenInit, launchFirst, initState, PIPE_NUM, RTSP_NUM, setAt] at hc
    by_cases h2 : c = 2
    · exact ⟨2, by omega, by omega⟩
    by_cases h1 : c = 1
    · exact ⟨1, by omega, by omega⟩
    by_cases h0 : c = 0
    · exact ⟨0, by omega, by omega⟩
    simp [h2, h1, h0] at hc

theorem rotationCycle_some (w : World) (fuel : Nat) (s : State) (r : State × List Event)
    (h : rotationCycle w fuel s = some r) :
    ∃ n l2, drainLoop w fuel (unsubscribePhase s).1.polls = some (n, l2) ∧
      r = ((swapPhase w (setPolls (unsubscribePhase s).1 n)).1,
        (unsubscribePhase s).2 ++ l2 ++ (swapPhase w (setPolls (unsubscribePhase s).1 n)).2) := by
  unfold rotationCycle at h
  simp only at h
  split at h
  · cases h
  · rename_i n l2 hd
    exact ⟨n, l2, hd, by cases h; rfl⟩

theorem rotationCycle_inv (w : World) (fuel k : Nat) (s : State) (r : State × List Event)
    (hinv : GenInv k s) (h : rotationCycle w fuel s = some r) : GenInv (k + 1) r.1 := by
  obtain ⟨n, l2, _, rfl⟩ := rotationCycle_some w fuel s r h
  obtain ⟨hb, _, hp⟩ := hinv
  have hbase : (unsubscribePhase s).1.listen_to_num_base = (4 * (k + 1)) % SIZE_T_MOD := by
    rw [unsubscribePhase_base, hb]; unfold SIZE_T_MOD; omega
  refine ⟨?_, ?_, ?_⟩
  · rw [swapPhase_base]; exact hbase
  · intro i hi
    rw [swapPhase_listenTo]
    simp only [hi, if_true, setPolls_base, hbase, chanIdx_gen]
  · intro c hc
    rw [swapPhase_pipe] at hc
    simp only [setPolls_base, setPolls_pipe, setPolls_launches, hbase, chanIdx_gen] at hc
    split_ifs at hc with h1 h2 h3 h4
    · exact absurd rfl hc
    · exact ⟨2, by omega, h2⟩
    · exact ⟨1, by omega, h3⟩
    · exact ⟨0, by omega, h4⟩
    · rw [(unsubscribePhase_fields s).1] at hc
      obtain ⟨i, hi, rfl⟩ := hp c hc
      exfalso
      apply h1
      have : i = 0 ∨ i = 1 ∨ i = 2 := by omega
      rcases this with h | h | h <;> subst h <;> omega

theorem runCycles_succ_some (w : World) (fuel k : Nat) (s : State) (r : State × List Event)
    (h : runCycles w fuel (k + 1) s = some r) :
    ∃ r1 r2, runCycles w fuel k s = some r1 ∧ rotationCycle w fuel r1.1 = some r2 ∧
      r = (r2.1, r1.2 ++ r2.2) := by
  simp only [runCycles] at h
  split at h
  · cases h
  · rename_i s1 l1 h1
    split at h
    · cases h
    · rename_i s2 l2 h2
      exact ⟨(s1, l1), (s2, l2), h1, h2, by cases h; rfl⟩

theorem runCycles_inv (w : World) (fuel k0 : Nat) (s : State) (hinv : GenInv k0 s) :
    ∀ (k : Nat) (r : State × List Event), runCycles w fuel k s = some r → GenInv (k0 + k) r.1 := by
  intro k
  induction k with
  | zero =>
    intro r h
    simp only [runCycles, Option.some.injEq] at h
    subst h
    exact hinv
  | succ k ih =>
    intro r h
    obtain ⟨r1, r2, h1, h2, rfl⟩ := runCycles_succ_some w fuel k s r h
    exact rotationCycle_inv w fuel (k0 + k) r1.1 r2 (ih r1 h1) h2

/-! ## The drain loop -/

theorem drainLoop_none (w : World) : ∀ (fuel n : Nat),
    (∀ j, j < fuel → pollAgain (w.clock (n + j)) (w.heartbeat (n + j)) = true) →
    drainLoop w fuel n = none := by
  intro fuel
  induction fuel with
  | zero => intro n _; rfl
  | succ fuel ih =>
    intro n h
    have h0 := h 0 (by omega)
    simp only [Nat.add_zero] at h0
    have h1 : drainLoop w fuel (n + 1) = none := by
      apply ih
      intro j hj
      have := h (j + 1) (by omega)
      rwa [show n + (j + 1) = n + 1 + j by omega] at this
    simp [drainLoop, h0, h1]

theorem drainLoop_exit (w : World) : ∀ (m fuel n : Nat), m < fuel →
    (∀ j, j < m → pollAgain (w.clock (n + j)) (w.heartbeat (n + j)) = true) →
    pollAgain (w.clock (n + m)) (w.heartbeat (n + m)) = false →
    ∃ pre, drainLoop w fuel n =
        some (n + m + 1, pre ++ [Event.poll (w.clock (n + m)) (w.heartbeat (n + m)) false]) ∧
      pre.length = m ∧ ∀ e, e ∈ pre → ∃ a b, e = Event.poll a b true := by
  intro m
  induction m with
  | zero =>
    intro fuel n hf _ hm
    obtain ⟨fuel, rfl⟩ : ∃ f, fuel = f + 1 := ⟨fuel - 1, by omega⟩
    simp only [Nat.add_zero] at hm
    exact ⟨[], by simp [drainLoop, hm], rfl, by simp⟩
  | succ m ih =>
    intro fuel n hf hpre hm
    obtain ⟨fuel, rfl⟩ : ∃ f, fuel = f + 1 := ⟨fuel - 1, by omega⟩
    have h0 := hpre 0 (by omega)
    simp only [Nat.add_zero] at h0
    have hshift : n + (m + 1) = n + 1 + m := by omega
    obtain ⟨pre, hd, hlen, hall⟩ := ih fuel (n + 1) (by omega)
      (by
        intro j hj
        have := hpre (j + 1) (by omega)
        rwa [show n + (j + 1) = n + 1 + j by omega] at this)
      (by rwa [hshift] at hm)
    refine ⟨Event.poll (w.clock n) (w.heartbeat n) true :: pre, ?_, by simp [hlen], ?_⟩
    · simp [drainLoop, h0, hd, hshift]
    · intro e he
      rcases List.mem_cons.mp he with he | he
      · exact ⟨_, _, he⟩
      · exact hall e he

theorem drainLoop_some (w : World) : ∀ (fuel n : Nat) (r : Nat × List Event),
    drainLoop w fuel n = some r →
    ∃ m pre, m < fuel ∧ r = (n + m + 1,
        pre ++ [Event.poll (w.clock (n + m)) (w.heartbeat (n + m)) false]) ∧
      pollAgain (w.clock (n + m)) (w.heartbeat (n + m)) = false ∧
      (∀ j, j < m → pollAgain (w.clock (n + j)) (w.heartbeat (n + j)) = true) ∧
      pre.length = m ∧ ∀ e, e ∈ pre → ∃ a b, e = Event.poll a b true := by
  intro fuel
  induction fuel with
  | zero => intro n r h; simp [drainLoop] at h
  | succ fuel ih =>
    intro n r h
    by_cases h0 : pollAgain (w.clock n) (w.heartbeat n) = true
    · simp only [drainLoop, h0, if_true, Option.map_eq_some'] at h
      obtain ⟨r1, h1, rfl⟩ := h
      obtain ⟨m, pre, hm, rfl, hlast, hbefore, hlen, hall⟩ := ih (n + 1) r1 h1
      have hshift : n + 1 + m = n + (m + 1) := by omega
      refine ⟨m + 1, Event.poll (w.clock n) (w.heartbeat n) true :: pre, by omega, ?_, ?_, ?_,
        by simp [hlen], ?_⟩
      · simp [hshift]
      · rwa [hshift] at hlast
      · intro j hj
        cases j with
        | zero => simpa using h0
        | succ j =>
          have := hbefore j (by omega)
          rwa [show n + 1 + j = n + (j + 1) by omega] at this
      · intro e he
        rcases List.mem_cons.mp he with he | he
        · exact ⟨_, _, he⟩
        · exact hall e he
    · have h0f : pollAgain (w.clock n) (w.heartbeat n) = false := by simpa using h0
      simp only [drainLoop, h0f, Bool.false_eq_true, if_false, Option.some.injEq] at h
      subst h
      exact ⟨0, [], by omega, by simp, by simpa using h0f, by intro j hj; omega, rfl, by simp⟩

theorem drainLoop_isSome_of_exit (w : World) (fuel n : Nat)
    (hex : ∃ m, m < fuel ∧ pollAgain (w.clock (n + m)) (w.heartbeat (n + m)) = false) :
    ∃ r, drainLoop w fuel n = some r := by
  classical
  let m := Nat.find hex
  have hm : m < fuel ∧ pollAgain (w.clock (n + m)) (w.heartbeat (n + m)) = false :=
    Nat.find_spec hex
  obtain ⟨pre, h, _⟩ := drainLoop_exit w m fuel n hm.1
    (by
      intro j hj
      have := Nat.find_min hex hj
      by_contra hne
      exact this ⟨by omega, by simpa using hne⟩)
    hm.2
  exact ⟨_, h⟩

theorem drainLoop_isSome (w : World) (fuel : Nat) (hd : DrainsWithin w fuel) (n : Nat) :
    ∃ r, drainLoop w fuel n = some r :=
  drainLoop_isSome_of_exit w fuel n (hd n)

theorem rotationCycle_isSome_of_exit (w : World) (fuel : Nat) (s : State)
    (hex : ∃ m, m < fuel ∧ pollAgain (w.clock (s.polls + m)) (w.heartbeat (s.polls + m)) = false) :
    ∃ r, rotationCycle w fuel s = some r := by
  have hp : (unsubscribePhase s).1.polls = s.polls := (unsubscribePhase_fields s).2.2
  obtain ⟨⟨n, l⟩, h⟩ := drainLoop_isSome_of_exit w fuel (unsubscribePhase s).1.polls
    (by rw [hp]; exact hex)
  refine ⟨((swapPhase w (setPolls (unsubscribePhase s).1 n)).1,
    (unsubscribePhase s).2 ++ l ++ (swapPhase w (setPolls (unsubscribePhase s).1 n)).2), ?_⟩
  simp only [rotationCycle, h]

theorem rotationCycle_isSome (w : World) (fuel : Nat) (hd : DrainsWithin w fuel) (s : State) :
    ∃ r, rotationCycle w fuel s = some r :=
  rotationCycle_isSome_of_exit w fuel s (hd s.polls)

theorem runCycles_isSome (w : World) (fuel : Nat) (hd : DrainsWithin w fuel) (s : State) :
    ∀ k, ∃ r, runCycles w fuel k s = some r := by
  intro k
  induction k with
  | zero => exact ⟨_, rfl⟩
  | succ k ih =>
    obtain ⟨⟨s1, l1⟩, h1⟩ := ih
    obtain ⟨⟨s2, l2⟩, h2⟩ := rotationCycle_isSome w fuel hd s1
    refine ⟨(s2, l1 ++ l2), ?_⟩
    simp only [runCycles, h1, h2]

/-! ## The commands of each phase -/

theorem forLoop_mem (body : Nat → State → State × List Event) :
    ∀ (n : Nat) (s : State) (e : Event), e ∈ (forLoop body n s).2 →
      ∃ i s1, i < n ∧ e ∈ (body i s1).2 := by
  intro n
  induction n with
  | zero => intro s e h; simp [forLoop] at h
  | succ n ih =>
    intro s e h
    simp only [forLoop, List.mem_append] at h
    rcases h with h | h
    · obtain ⟨i, s1, hi, he⟩ := ih s e h
      exact ⟨i, s1, by omega, he⟩
    · exact ⟨n, _, by omega, h⟩

theorem stopAt_mem (idx : Nat) (s : State) (e : Event) (h : e ∈ (stopAt idx s).2) :
    ∃ p, s.pipe idx = some p ∧ e = Event.setState (some p) GstState.GST_STATE_NULL := by
  unfold stopAt at h
  split at h
  · rename_i p hp
    exact ⟨p, hp, by simpa using h⟩
  · simp at h

theorem unrefAt_mem (idx : Nat) (s : State) (e : Event) (h : e ∈ (unrefAt idx s).2) :
    ∃ p, s.pipe idx = some p ∧ e = Event.unref p := by
  unfold unrefAt at h
  split at h
  · rename_i p hp
    exact ⟨p, hp, by simpa using h⟩
  · simp at h

theorem unsubscribePhase_log (s : State) :
    (unsubscribePhase s).2 = [Event.sleep 5, Event.listenTo 0 none, Event.listenTo 1 none,
      Event.listenTo 2 none, Event.listenTo 3 none] := by
  simp [unsubscribePhase, forLoop, unsubscribeStep, unsubscribe, PIPE_NUM]

theorem chanIdx_ne (b i j : Nat) (hi : i < 8) (hj : j < 8) (hij : i ≠ j) :
    chanIdx b i ≠ chanIdx b j := by
  unfold chanIdx SIZE_T_MOD MUXER_BATCH_SIZE
  omega

theorem launchLoop_log (w : World) (s : State) :
    (forLoop (launchStep w) RTSP_NUM s).2 =
      [Event.launch 0 (interpipeName (chanIdx s.listen_to_num_base 0))
          (chanIdx s.listen_to_num_base 0) (s.pipe (chanIdx s.listen_to_num_base 0))
          (w.launch s.launches),
        Event.setState (w.launch s.launches) GstState.GST_STATE_PLAYING,
        Event.launch 1 (interpipeName (chanIdx s.listen_to_num_base 1))
          (chanIdx s.listen_to_num_base 1) (s.pipe (chanIdx s.listen_to_num_base 1))
          (w.launch (s.launches + 1)),
        Event.setState (w.launch (s.launches + 1)) GstState.GST_STATE_PLAYING,
        Event.launch 2 (interpipeName (chanIdx s.listen_to_num_base 2))
          (chanIdx s.listen_to_num_base 2) (s.pipe (chanIdx s.listen_to_num_base 2))
          (w.launch (s.launches + 2)),
        Event.setState (w.launch (s.launches + 2)) GstState.GST_STATE_PLAYING] := by
  have h10 := chanIdx_ne s.listen_to_num_base 1 0 (by decide) (by decide) (by decide)
  have h20 := chanIdx_ne s.listen_to_num_base 2 0 (by decide) (by decide) (by decide)
  have h21 := chanIdx_ne s.listen_to_num_base 2 1 (by decide) (by decide) (by decide)
  simp [forLoop, launchStep, RTSP_NUM, setAt, h10, h20, h21]

theorem launchLoop_fields (w : World) (s : State) :
    (forLoop (launchStep w) RTSP_NUM s).1.listen_to_num_base = s.listen_to_num_base ∧
    (forLoop (launchStep w) RTSP_NUM s).1.listenTo = s.listenTo := by
  simp [forLoop, launchStep, RTSP_NUM]

/-- The commands of the part of a cycle after the drain loop. -/
theorem swapPhase_log (w : World) (s : State) :
    ∃ despawn,
      (swapPhase w s).2 = (forLoop (launchStep w) RTSP_NUM s).2 ++ despawn ++
        [Event.sleep 3,
          Event.listenTo 0 (some (interpipeName (chanIdx s.listen_to_num_base 0))),
          Event.listenTo 1 (some (interpipeName (chanIdx s.listen_to_num_base 1))),
          Event.listenTo 2 (some (interpipeName (chanIdx s.listen_to_num_base 2))),
          Event.listenTo 3 (some (interpipeName (chanIdx s.listen_to_num_base 3)))] ∧
      ∀ e, e ∈ despawn →
        (∃ p, e = Event.setState (some p) GstState.GST_STATE_NULL) ∨ (∃ p, e = Event.unref p) := by
  refine ⟨(forLoop stopOlderStep PIPE_NUM (forLoop (launchStep w) RTSP_NUM s).1).2 ++
    (forLoop unrefOlderStep PIPE_NUM
      (forLoop stopOlderStep PIPE_NUM (forLoop (launchStep w) RTSP_NUM s).1).1).2, ?_, ?_⟩
  · simp only [swapPhase, List.append_assoc, List.append_cancel_left_eq]
    simp [forLoop, resubscribeStep, launchStep, stopOlderStep, unrefOlderStep, PIPE_NUM, RTSP_NUM,
      stopAt_state, unrefAt_fields]
  · intro e he
    rcases List.mem_append.mp he with he | he
    · obtain ⟨i, s1, _, hmem⟩ := forLoop_mem _ _ _ _ he
      obtain ⟨p, _, hp⟩ := stopAt_mem _ _ _ hmem
      exact Or.inl ⟨p, hp⟩
    · obtain ⟨i, s1, _, hmem⟩ := forLoop_mem _ _ _ _ he
      obtain ⟨p, _, hp⟩ := unrefAt_mem _ _ _ hmem
      exact Or.inr ⟨p, hp⟩

/-! ## Claims -/

theorem steadyWorld_drains : DrainsWithin steadyWorld 1 := by
  intro n
  exact ⟨0, by decide, by show pollAgain ⟨1, 0⟩ ⟨0, 0⟩ = false; decide⟩

/-- C1: after the `k`-th completed rotation cycle (`k ≥ 1`) slot `i < 4`
listens to the channel of index `(4k + i) mod 8` and the table entry at the
previous generation's index `(4(k-1) + i) mod 8` is null; at start-up slot `i`
listens to channel `i`; the `k` cycles complete whenever every drain wait ends. -/
theorem rotation_rebinds_slots (w : World) (fuel k : Nat) (hk : 1 ≤ k) :
    (DrainsWithin w fuel → ∃ r, runCycles w fuel k (startUp w).1 = some r) ∧
    ∀ s log, runCycles w fuel k (startUp w).1 = some (s, log) →
      ∀ i, i < 4 →
        (startUp w).1.listenTo i = some (interpipeName i) ∧
        s.listenTo i = some (interpipeName ((4 * k + i) % 8)) ∧
        s.pipe ((4 * (k - 1) + i) % 8) = none := by
  refine ⟨fun hd => runCycles_isSome w fuel hd _ k, ?_⟩
  intro s log hrun i hi
  have h0 := startUp_inv w
  have hk := runCycles_inv w fuel 0 _ h0 k (s, log) hrun
  rw [Nat.zero_add] at hk
  refine ⟨?_, hk.2.1 i hi, ?_⟩
  · have := h0.2.1 i hi
    rwa [show (4 * 0 + i) % 8 = i by omega] at this
  · by_contra hne
    obtain ⟨j, hj, hc⟩ := hk.2.2 _ hne
    omega

/-- Witness of C1: in `steadyWorld` the first cycle completes, after it slots
0..3 listen to `interpipe-04` .. `interpipe-07` and `pipe[0..3]` are null. -/
theorem rotation_rebinds_slots_witness :
    1 ≤ 1 ∧ DrainsWithin steadyWorld 1 ∧
    ∃ s log, runCycles steadyWorld 1 1 (startUp steadyWorld).1 = some (s, log) ∧
      (startUp steadyWorld).1.listenTo 0 = some "interpipe-00" ∧
      (startUp steadyWorld).1.listenTo 3 = some "interpipe-03" ∧
      s.listenTo 0 = some "interpipe-04" ∧ s.listenTo 1 = some "interpipe-05" ∧
      s.listenTo 2 = some "interpipe-06" ∧ s.listenTo 3 = some "interpipe-07" ∧
      s.pipe 0 = none ∧ s.pipe 1 = none ∧ s.pipe 2 = none ∧ s.pipe 3 = none := by
  obtain ⟨hterm, hprop⟩ := rotation_rebinds_slots steadyWorld 1 1 (by decide)
  obtain ⟨⟨s, log⟩, hr⟩ := hterm steadyWorld_drains
  have h := hprop s log hr
  exact ⟨by decide, steadyWorld_drains, s, log, hr, (h 0 (by decide)).1, (h 3 (by decide)).1,
    (h 0 (by decide)).2.1, (h 1 (by decide)).2.1, (h 2 (by decide)).2.1, (h 3 (by decide)).2.1,
    (h 0 (by decide)).2.2, (h 1 (by decide)).2.2, (h 2 (by decide)).2.2, (h 3 (by decide)).2.2⟩

theorem rotationCycle_live (w : World) (fuel k : Nat) (s : State) (r : State × List Event)
    (hinv : GenInv k s) (h : rotationCycle w fuel s = some r) :
    ∀ i, i < 3 → r.1.pipe ((4 * (k + 1) + i) % 8) = w.launch (s.launches + i) := by
  obtain ⟨n, l2, _, rfl⟩ := rotationCycle_some w fuel s r h
  have hbase : (unsubscribePhase s).1.listen_to_num_base = (4 * (k + 1)) % SIZE_T_MOD := by
    rw [unsubscribePhase_base, hinv.1]; unfold SIZE_T_MOD; omega
  intro i hi
  rw [swapPhase_pipe]
  simp only [setPolls_base, setPolls_pipe, setPolls_launches, hbase, chanIdx_gen,
    (unsubscribePhase_fields s).2.1]
  have : i = 0 ∨ i = 1 ∨ i = 2 := by omega
  rcases this with h | h | h <;> subst h <;> split_ifs <;> first | rfl | omega

theorem interpipeName_inj : ∀ a, a < 8 → ∀ b, b < 8 → interpipeName a = interpipeName b → a = b := by
  decide

/-- Counterexample to C2 as stated: in `steadyWorld`, where every launch
succeeds, the channels with both a live producer and a listening slot after
the first cycle are 4, 5 and 6: three channels, not four. -/
theorem paired_channels_counterexample :
    ∃ s log, runCycles steadyWorld 1 1 (startUp steadyWorld).1 = some (s, log) ∧
      pairedChannels s = [4, 5, 6] ∧ (pairedChannels s).length ≠ 4 :=
  ⟨_, _, rfl, by decide, by decide⟩

/-- C2 (amended): when every launch returns a pointer, at the end of the
`k`-th completed rotation cycle exactly three channels have both a live
producer and a listening slot, those of slots 0, 1, 2; slot 3 listens to
channel `(4k + 3) mod 8`, which has no producer; slot `i` listens to channel
`(4k + i) mod 8` and distinct slots listen to distinct names. -/
theorem paired_channels_three (w : World) (fuel k : Nat) (hk : 1 ≤ k)
    (hl : ∀ n, w.launch n ≠ none) :
    (DrainsWithin w fuel → ∃ r, runCycles w fuel k (startUp w).1 = some r) ∧
    ∀ s log, runCycles w fuel k (startUp w).1 = some (s, log) →
      pairedChannels s = [(4 * k) % 8, (4 * k + 1) % 8, (4 * k + 2) % 8] ∧
      (pairedChannels s).length = 3 ∧
      s.pipe ((4 * k + 3) % 8) = none ∧
      (∀ i, i < 4 → s.listenTo i = some (interpipeName ((4 * k + i) % 8))) ∧
      (∀ i j, i < 4 → j < 4 → s.listenTo i = s.listenTo j → i = j) := by
  refine ⟨fun hd => runCycles_isSome w fuel hd _ k, ?_⟩
  intro s log hrun
  obtain ⟨k, rfl⟩ : ∃ k0, k = k0 + 1 := ⟨k - 1, by omega⟩
  obtain ⟨r1, r2, h1, h2, heq⟩ := runCycles_succ_some w fuel k _ (s, log) hrun
  have hs : s = r2.1 := congrArg Prod.fst heq
  have hinv1 := runCycles_inv w fuel 0 _ (startUp_inv w) k r1 h1
  rw [Nat.zero_add] at hinv1
  have hinv := rotationCycle_inv w fuel k r1.1 r2 hinv1 h2
  have hlive := rotationCycle_live w fuel k r1.1 r2 hinv1 h2
  rw [← hs] at hinv hlive
  obtain ⟨_, hlisten, hdead⟩ := hinv
  have hsome : ∀ i, i < 3 → (s.pipe ((4 * (k + 1) + i) % 8)).isSome = true := by
    intro i hi
    rw [hlive i hi, Option.isSome_iff_ne_none]
    exact hl _
  have hnone : ∀ c, (∀ i, i < 3 → c ≠ (4 * (k + 1) + i) % 8) → s.pipe c = none := by
    intro c hc
    by_contra hne
    obtain ⟨i, hi, rfl⟩ := hdead c hne
    exact hc i hi rfl
  have hr8 : List.range 8 = [0, 1, 2, 3, 4, 5, 6, 7] := by decide
  have hr4 : List.range 4 = [0, 1, 2, 3] := by decide
  have hpc : pairedChannels s = [(4 * (k + 1)) % 8, (4 * (k + 1) + 1) % 8, (4 * (k + 1) + 2) % 8] := by
    have hcase : (4 * (k + 1)) % 8 = 0 ∨ (4 * (k + 1)) % 8 = 4 := by omega
    rcases hcase with hc | hc
    · have e0 : (4 * (k + 1) + 0) % 8 = 0 := by omega
      have e1 : (4 * (k + 1) + 1) % 8 = 1 := by omega
      have e2 : (4 * (k + 1) + 2) % 8 = 2 := by omega
      have e3 : (4 * (k + 1) + 3) % 8 = 3 := by omega
      have p0 := hsome 0 (by omega); have p1 := hsome 1 (by omega); have p2 := hsome 2 (by omega)
      have l0 := hlisten 0 (by omega); have l1 := hlisten 1 (by omega)
      have l2 := hlisten 2 (by omega)
      rw [e0] at p0 l0; rw [e1] at p1 l1; rw [e2] at p2 l2
      have n3 := hnone 3 (by intro i hi; omega)
      have n4 := hnone 4 (by intro i hi; omega)
      have n5 := hnone 5 (by intro i hi; omega)
      have n6 := hnone 6 (by intro i hi; omega)
      have n7 := hnone 7 (by intro i hi; omega)
      simp [pairedChannels, PIPE_NUM_2, PIPE_NUM, hr8, hr4, List.filter, p0, p1, p2, l0, l1, l2,
        n3, n4, n5, n6, n7, hc, e1, e2]
    · have e0 : (4 * (k + 1) + 0) % 8 = 4 := by omega
      have e1 : (4 * (k + 1) + 1) % 8 = 5 := by omega
      have e2 : (4 * (k + 1) + 2) % 8 = 6 := by omega
      have p0 := hsome 0 (by omega); have p1 := hsome 1 (by omega); have p2 := hsome 2 (by omega)
      have l0 := hlisten 0 (by omega); have l1 := hlisten 1 (by omega)
      have l2 := hlisten 2 (by omega)
      rw [e0] at p0 l0; rw [e1] at p1 l1; rw [e2] at p2 l2
      have n0 := hnone 0 (by intro i hi; omega)
      have n1 := hnone 1 (by intro i hi; omega)
      have n2 := hnone 2 (by intro i hi; omega)
      have n3 := hnone 3 (by intro i hi; omega)
      have n7 := hnone 7 (by intro i hi; omega)
      simp [pairedChannels, PIPE_NUM_2, PIPE_NUM, hr8, hr4, List.filter, p0, p1, p2, l0, l1, l2,
        n0, n1, n2, n3, n7, hc, e1, e2]
  refine ⟨hpc, by rw [hpc]; rfl, hnone _ (by intro i hi; omega), hlisten, ?_⟩
  · intro i j hi hj hij
    rw [hlisten i hi, hlisten j hj, Option.some.injEq] at hij
    have := interpipeName_inj _ (Nat.mod_lt _ (by decide)) _ (Nat.mod_lt _ (by decide)) hij
    omega


/-- Witness of C2 (amended): in `steadyWorld` after the first cycle. -/
theorem paired_channels_three_witness :
    1 ≤ 1 ∧ (∀ n, steadyWorld.launch n ≠ none) ∧ DrainsWithin steadyWorld 1 ∧
    ∃ s log, runCycles steadyWorld 1 1 (startUp steadyWorld).1 = some (s, log) ∧
      pairedChannels s = [4, 5, 6] ∧ s.pipe 7 = none ∧
      s.listenTo 3 = some "interpipe-07" := by
  have hl : ∀ n, steadyWorld.launch n ≠ none := by intro n; simp [steadyWorld]
  obtain ⟨hterm, hprop⟩ := paired_channels_three steadyWorld 1 1 (by decide) hl
  obtain ⟨⟨s, log⟩, hr⟩ := hterm steadyWorld_drains
  have h := hprop s log hr
  exact ⟨by decide, hl, steadyWorld_drains, s, log, hr, h.1, h.2.2.1, h.2.2.2.1 3 (by decide)⟩

theorem startUp_launch_old (w : World) (t : Nat) (nm : String) (idx : Nat)
    (old new : Option Handle) (h : Event.launch t nm idx old new ∈ (startUp w).2) :
    old = none ∧ nm = interpipeName idx := by
  have c0 : chanIdx 0 0 = 0 := by decide
  have c1 : chanIdx 0 1 = 1 := by decide
  have c2 : chanIdx 0 2 = 2 := by decide
  simp [startUp, forLoop, listenInit, launchFirst, initState, PIPE_NUM, RTSP_NUM, setAt,
    c0, c1, c2] at h
  rcases h with h | h | h
  · obtain ⟨_, rfl, rfl, rfl, _⟩ := h; exact ⟨rfl, rfl⟩
  · obtain ⟨_, rfl, rfl, rfl, _⟩ := h; exact ⟨rfl, rfl⟩
  · obtain ⟨_, rfl, rfl, rfl, _⟩ := h; exact ⟨rfl, rfl⟩

theorem rotationCycle_log (w : World) (fuel : Nat) (s : State) (r : State × List Event)
    (h : rotationCycle w fuel s = some r) :
    ∃ pre now infer despawn,
      r.2 = [Event.sleep 5, Event.listenTo 0 none, Event.listenTo 1 none,
          Event.listenTo 2 none, Event.listenTo 3 none]
        ++ (pre ++ [Event.poll now infer false])
        ++ (forLoop (launchStep w) RTSP_NUM
              (setPolls (unsubscribePhase s).1 r.1.polls)).2
        ++ despawn
        ++ [Event.sleep 3,
          Event.listenTo 0 (some (interpipeName (chanIdx ((s.listen_to_num_base + 4) % SIZE_T_MOD) 0))),
          Event.listenTo 1 (some (interpipeName (chanIdx ((s.listen_to_num_base + 4) % SIZE_T_MOD) 1))),
          Event.listenTo 2 (some (interpipeName (chanIdx ((s.listen_to_num_base + 4) % SIZE_T_MOD) 2))),
          Event.listenTo 3 (some (interpipeName (chanIdx ((s.listen_to_num_base + 4) % SIZE_T_MOD) 3)))] ∧
      pollAgain now infer = false ∧
      (∀ e, e ∈ pre → ∃ a b, e = Event.poll a b true) ∧
      (∀ e, e ∈ despawn →
        (∃ p, e = Event.setState (some p) GstState.GST_STATE_NULL) ∨ (∃ p, e = Event.unref p)) := by
  obtain ⟨n, l2, hd, rfl⟩ := rotationCycle_some w fuel s r h
  obtain ⟨m, pre, _, hl2, hlast, _, _, hall⟩ := drainLoop_some w fuel _ (n, l2) hd
  obtain ⟨despawn, hlog, hdes⟩ := swapPhase_log w (setPolls (unsubscribePhase s).1 n)
  have hl2b : l2 = pre ++ [Event.poll (w.clock ((unsubscribePhase s).1.polls + m))
      (w.heartbeat ((unsubscribePhase s).1.polls + m)) false] := congrArg Prod.snd hl2
  have hpolls : (swapPhase w (setPolls (unsubscribePhase s).1 n)).1.polls = n := by
    simp [swapPhase, forLoop, launchStep, stopOlderStep, unrefOlderStep, resubscribeStep,
      PIPE_NUM, RTSP_NUM, stopAt_state, unrefAt_fields, setPolls_polls]
  refine ⟨pre, _, _, despawn, ?_, hlast, hall, hdes⟩
  simp only [hlog, unsubscribePhase_log, hl2b, unsubscribePhase_base, hpolls, setPolls_base,
    List.append_assoc]

theorem rotationCycle_launch_old (w : World) (fuel k : Nat) (s : State) (r : State × List Event)
    (hinv : GenInv k s) (h : rotationCycle w fuel s = some r) (t : Nat) (nm : String) (idx : Nat)
    (old new : Option Handle) (hmem : Event.launch t nm idx old new ∈ r.2) :
    old = none ∧ nm = interpipeName idx := by
  obtain ⟨pre, now, infer, despawn, hlog, _, hpre, hdes⟩ := rotationCycle_log w fuel s r h
  have hbase : (unsubscribePhase s).1.listen_to_num_base = (4 * (k + 1)) % SIZE_T_MOD := by
    rw [unsubscribePhase_base, hinv.1]; unfold SIZE_T_MOD; omega
  have hnone : ∀ i, i < 3 → s.pipe ((4 * (k + 1) + i) % 8) = none := by
    intro i hi
    by_contra hne
    obtain ⟨j, hj, hc⟩ := hinv.2.2 _ hne
    omega
  rw [hlog, launchLoop_log] at hmem
  simp only [List.mem_append, List.mem_cons, List.mem_singleton, setPolls_base, setPolls_pipe,
    setPolls_launches, hbase, chanIdx_gen,
    (unsubscribePhase_fields s).1, (unsubscribePhase_fields s).2.1] at hmem
  rcases hmem with (((hm | hm) | hm) | hm) | hm
  · simp at hm
  · rcases hm with hm | hm
    · obtain ⟨a, b, hab⟩ := hpre _ hm
      cases hab
    · simp at hm
  · simp only [Event.launch.injEq, List.not_mem_nil, or_false] at hm
    rcases hm with hm | hm | hm | hm | hm | hm
    · obtain ⟨_, rfl, rfl, rfl, _⟩ := hm
      exact ⟨hnone 0 (by omega), rfl⟩
    · cases hm
    · obtain ⟨_, rfl, rfl, rfl, _⟩ := hm
      exact ⟨hnone 1 (by omega), rfl⟩
    · cases hm
    · obtain ⟨_, rfl, rfl, rfl, _⟩ := hm
      exact ⟨hnone 2 (by omega), rfl⟩
    · cases hm
  · rcases hdes _ hm with ⟨p, hp⟩ | ⟨p, hp⟩ <;> cases hp
  · simp at hm

theorem runCycles_launch_old (w : World) (fuel : Nat) :
    ∀ (k : Nat) (r : State × List Event), runCycles w fuel k (startUp w).1 = some r →
      ∀ (t : Nat) (nm : String) (idx : Nat) (old new : Option Handle),
        Event.launch t nm idx old new ∈ r.2 → old = none ∧ nm = interpipeName idx := by
  intro k
  induction k with
  | zero =>
    intro r h t nm idx old new hmem
    simp only [runCycles, Option.some.injEq] at h
    subst h
    simp at hmem
  | succ k ih =>
    intro r h t nm idx old new hmem
    obtain ⟨r1, r2, h1, h2, rfl⟩ := runCycles_succ_some w fuel k _ r h
    rcases List.mem_append.mp hmem with hm | hm
    · exact ih r1 h1 t nm idx old new hm
    · have hinv := runCycles_inv w fuel 0 _ (startUp_inv w) k r1 h1
      exact rotationCycle_launch_old w fuel (0 + k) r1.1 r2 hinv h2 t nm idx old new hm

/-- C3: in start-up and in every cycle, each assignment
`pipe[idx] = gst_parse_launch(..)` finds `pipe[idx]` null, and the producer is
named after its table index; the indices of generation `g + 1` differ from
those of generation `g`, and generation `g + 2` uses the indices of
generation `g` again. -/
theorem spawn_never_overwrites (w : World) (fuel k : Nat) :
    (DrainsWithin w fuel → ∃ r, runCycles w fuel k (startUp w).1 = some r) ∧
    (∀ s log, runCycles w fuel k (startUp w).1 = some (s, log) →
      ∀ (t : Nat) (nm : String) (idx : Nat) (old new : Option Handle),
        Event.launch t nm idx old new ∈ (startUp w).2 ++ log →
          old = none ∧ nm = interpipeName idx) ∧
    (∀ g i j, i < 4 → j < 4 →
      chanIdx ((4 * (g + 1)) % SIZE_T_MOD) i ≠ chanIdx ((4 * g) % SIZE_T_MOD) j) ∧
    (∀ g i, chanIdx ((4 * (g + 2)) % SIZE_T_MOD) i = chanIdx ((4 * g) % SIZE_T_MOD) i) := by
  refine ⟨fun hd => runCycles_isSome w fuel hd _ k, ?_, ?_, ?_⟩
  · intro s log hrun t nm idx old new hmem
    rcases List.mem_append.mp hmem with hm | hm
    · exact startUp_launch_old w t nm idx old new hm
    · exact runCycles_launch_old w fuel k (s, log) hrun t nm idx old new hm
  · intro g i j hi hj
    rw [chanIdx_gen, chanIdx_gen]
    omega
  · intro g i
    rw [chanIdx_gen, chanIdx_gen]
    omega

/-- Witness of C3: in `steadyWorld` two cycles complete; the launch of the
second cycle onto index 0 (used by the start-up generation) finds it null. -/
theorem spawn_never_overwrites_witness :
    DrainsWithin steadyWorld 1 ∧
    ∃ s log, runCycles steadyWorld 1 2 (startUp steadyWorld).1 = some (s, log) ∧
      Event.launch 0 "interpipe-00" 0 none (some 6) ∈ (startUp steadyWorld).2 ++ log ∧
      ∀ (t : Nat) (nm : String) (idx : Nat) (old new : Option Handle),
        Event.launch t nm idx old new ∈ (startUp steadyWorld).2 ++ log →
          old = none ∧ nm = interpipeName idx := by
  obtain ⟨hterm, hprop, _⟩ := spawn_never_overwrites steadyWorld 1 2
  obtain ⟨⟨s, log⟩, hr⟩ := hterm steadyWorld_drains
  refine ⟨steadyWorld_drains, s, log, hr, ?_, hprop s log hr⟩
  have hlog : runCycles steadyWorld 1 2 (startUp steadyWorld).1 = some (s, log) := hr
  have hev : (runCycles steadyWorld 1 2 (startUp steadyWorld).1).map
      (fun r => decide (Event.launch 0 "interpipe-00" 0 none (some 6) ∈ r.2)) = some true := by
    set_option maxRecDepth 100000 in decide
  rw [hlog] at hev
  simp only [Option.map_some', Option.some.injEq, decide_eq_true_eq] at hev
  exact List.mem_append_right _ hev

/-- C4: the commands of a rotation cycle come in this order: `sleep(5)` and
the four unsubscriptions; then the passes of the drain loop, all but the last
with the loop condition true and the last with an elapsed time of at least
`5 * MUXER_BATCH_TIMEOUT_USEC`; then the launches of the new generation (with
their `PLAYING` transitions); then the `NULL` transitions and unrefs of the
old generation; then `sleep(3)` and the four resubscriptions. The cycle
reaches its end whenever some pass within the fuel finds the condition false. -/
theorem cycle_command_order (w : World) (fuel : Nat) (s : State) :
    ((∃ m, m < fuel ∧ pollAgain (w.clock (s.polls + m)) (w.heartbeat (s.polls + m)) = false) →
      ∃ r, rotationCycle w fuel s = some r) ∧
    ∀ r, rotationCycle w fuel s = some r →
      ∃ pre now infer spawn despawn,
        r.2 = [Event.sleep 5, Event.listenTo 0 none, Event.listenTo 1 none,
            Event.listenTo 2 none, Event.listenTo 3 none]
          ++ (pre ++ [Event.poll now infer false])
          ++ spawn
          ++ despawn
          ++ [Event.sleep 3,
            Event.listenTo 0 (some (interpipeName (chanIdx ((s.listen_to_num_base + 4) % SIZE_T_MOD) 0))),
            Event.listenTo 1 (some (interpipeName (chanIdx ((s.listen_to_num_base + 4) % SIZE_T_MOD) 1))),
            Event.listenTo 2 (some (interpipeName (chanIdx ((s.listen_to_num_base + 4) % SIZE_T_MOD) 2))),
            Event.listenTo 3 (some (interpipeName (chanIdx ((s.listen_to_num_base + 4) % SIZE_T_MOD) 3)))] ∧
        MUXER_BATCH_TIMEOUT_USEC * 5 ≤ elapsedUsec now infer ∧
        (∀ e, e ∈ pre → ∃ a b, e = Event.poll a b true) ∧
        (∀ e, e ∈ spawn → (∃ t nm idx old new, e = Event.launch t nm idx old new) ∨
          (∃ p, e = Event.setState p GstState.GST_STATE_PLAYING)) ∧
        (∃ nm idx old new, Event.launch 0 nm idx old new ∈ spawn) ∧
        (∀ e, e ∈ despawn → (∃ p, e = Event.setState (some p) GstState.GST_STATE_NULL) ∨
          (∃ p, e = Event.unref p)) := by
  refine ⟨rotationCycle_isSome_of_exit w fuel s, ?_⟩
  intro r h
  obtain ⟨pre, now, infer, despawn, hlog, hexit, hpre, hdes⟩ := rotationCycle_log w fuel s r h
  refine ⟨pre, now, infer, _, despawn, hlog, ?_, hpre, ?_, ?_, hdes⟩
  · simpa [pollAgain] using hexit
  · intro e he
    rw [launchLoop_log] at he
    simp only [List.mem_cons, List.mem_singleton, List.not_mem_nil, or_false] at he
    rcases he with he | he | he | he | he | he
    · exact Or.inl ⟨_, _, _, _, _, he⟩
    · exact Or.inr ⟨_, he⟩
    · exact Or.inl ⟨_, _, _, _, _, he⟩
    · exact Or.inr ⟨_, he⟩
    · exact Or.inl ⟨_, _, _, _, _, he⟩
    · exact Or.inr ⟨_, he⟩
  · rw [launchLoop_log]
    exact ⟨_, _, _, _, List.mem_cons_self _ _⟩

/-- Witness of C4: the first cycle of `steadyWorld`. -/
theorem cycle_command_order_witness :
    (∃ m, m < 1 ∧ pollAgain (steadyWorld.clock ((startUp steadyWorld).1.polls + m))
      (steadyWorld.heartbeat ((startUp steadyWorld).1.polls + m)) = false) ∧
    ∃ r, rotationCycle steadyWorld 1 (startUp steadyWorld).1 = some r ∧
      ∃ pre now infer spawn despawn,
        r.2 = [Event.sleep 5, Event.listenTo 0 none, Event.listenTo 1 none,
            Event.listenTo 2 none, Event.listenTo 3 none]
          ++ (pre ++ [Event.poll now infer false])
          ++ spawn
          ++ despawn
          ++ [Event.sleep 3,
            Event.listenTo 0 (some "interpipe-04"), Event.listenTo 1 (some "interpipe-05"),
            Event.listenTo 2 (some "interpipe-06"), Event.listenTo 3 (some "interpipe-07")] ∧
        MUXER_BATCH_TIMEOUT_USEC * 5 ≤ elapsedUsec now infer := by
  have hex : ∃ m, m < 1 ∧ pollAgain (steadyWorld.clock ((startUp steadyWorld).1.polls + m))
      (steadyWorld.heartbeat ((startUp steadyWorld).1.polls + m)) = false :=
    ⟨0, by decide, by decide⟩
  obtain ⟨hterm, hprop⟩ := cycle_command_order steadyWorld 1 (startUp steadyWorld).1
  obtain ⟨r, hr⟩ := hterm hex
  obtain ⟨pre, now, infer, spawn, despawn, hlog, hage, _⟩ := hprop r hr
  exact ⟨hex, r, hr, pre, now, infer, spawn, despawn, hlog, hage⟩

theorem elapsedUsec_eq_age (now infer : Timeval) (h : SampleOk now infer) :
    elapsedUsec now infer = ageUsec now infer := by
  obtain ⟨⟨h1, h2⟩, ⟨h3, h4⟩, h5, h6⟩ := h
  simp only [elapsedUsec, ageUsec, usecOf, wrap64]
  norm_num
  omega

theorem pollAgain_iff_age (now infer : Timeval) (h : SampleOk now infer) :
    pollAgain now infer = true ↔ ageUsec now infer < 200000 := by
  simp [pollAgain, elapsedUsec_eq_age now infer h, MUXER_BATCH_TIMEOUT_USEC]

/-- C5: `5 * MUXER_BATCH_TIMEOUT_USEC` is 200000; on normalised timestamps
the loop condition holds exactly when the true age `now - infer` is below
200000 microseconds; and when the first `n` passes see an age below 200000 and
pass `n` sees an age of at least 200000, the drain loop makes exactly `n + 1`
passes (at least one) and is still polling after any `n` or fewer passes. -/
theorem drain_threshold (w : World) (fuel start n : Nat)
    (hok : ∀ j, j ≤ n → SampleOk (w.clock (start + j)) (w.heartbeat (start + j)))
    (hfresh : ∀ j, j < n → ageUsec (w.clock (start + j)) (w.heartbeat (start + j)) < 200000)
    (hstale : 200000 ≤ ageUsec (w.clock (start + n)) (w.heartbeat (start + n)))
    (hfuel : n < fuel) :
    MUXER_BATCH_TIMEOUT_USEC * 5 = 200000 ∧
    (∀ now infer, SampleOk now infer →
      (pollAgain now infer = true ↔ ageUsec now infer < 200000)) ∧
    (∃ log, drainLoop w fuel start = some (start + n + 1, log) ∧ log.length = n + 1) ∧
    (∀ f, f ≤ n → drainLoop w f start = none) := by
  have hbefore : ∀ j, j < n →
      pollAgain (w.clock (start + j)) (w.heartbeat (start + j)) = true := by
    intro j hj
    exact (pollAgain_iff_age _ _ (hok j (by omega))).2 (hfresh j hj)
  have hlast : pollAgain (w.clock (start + n)) (w.heartbeat (start + n)) = false := by
    have := (pollAgain_iff_age _ _ (hok n (by omega))).not.2 (by omega)
    simpa using this
  refine ⟨by decide, pollAgain_iff_age, ?_, ?_⟩
  · obtain ⟨pre, h, hlen, _⟩ := drainLoop_exit w n fuel start hfuel hbefore hlast
    exact ⟨_, h, by simp [hlen]⟩
  · intro f hf
    exact drainLoop_none w f start (fun j hj => hbefore j (by omega))

/-- Witness of C5: with the heartbeat at `5.900000`, the passes at `6.000000`
(age 100000, microsecond field below the heartbeat's) and `6.050000` poll
again and the pass at `6.100000` (age 200000) leaves the loop. -/
theorem drain_threshold_witness :
    ageUsec (borrowWorld.clock 0) (borrowWorld.heartbeat 0) = 100000 ∧
    pollAgain (borrowWorld.clock 0) (borrowWorld.heartbeat 0) = true ∧
    ageUsec (borrowWorld.clock 2) (borrowWorld.heartbeat 2) = 200000 ∧
    (∃ log, drainLoop borrowWorld 3 0 = some (0 + 2 + 1, log) ∧ log.length = 2 + 1) ∧
    (∀ f, f ≤ 2 → drainLoop borrowWorld f 0 = none) := by
  have hcases : ∀ j, j ≤ 2 → j = 0 ∨ j = 1 ∨ j = 2 := by intro j hj; omega
  have h := drain_threshold borrowWorld 3 0 2
    (by
      intro j hj
      rcases hcases j hj with h | h | h <;> subst h <;>
        simp [SampleOk, borrowWorld])
    (by
      intro j hj
      rcases hcases j (by omega) with h | h | h <;> subst h <;>
        simp [ageUsec, usecOf, borrowWorld] at *)
    (by simp [ageUsec, usecOf, borrowWorld])
    (by decide)
  exact ⟨by simp [ageUsec, usecOf, borrowWorld], by decide,
    by simp [ageUsec, usecOf, borrowWorld], h.2.2.1, h.2.2.2⟩

/-- Counterexample to C6 as stated: in `failWorld` the first launch of the
first cycle returns `NULL`; the commands that follow it are the two other
launches, the destruction of the old generation, the four resubscriptions,
and the `sleep(5)` that begins the second cycle. -/
theorem spawn_failure_counterexample :
    failWorld.launch 3 = none ∧
    (runCycles failWorld 1 2 (startUp failWorld).1).map (fun r => (r.2.drop 6).take 18) =
      some [Event.launch 0 "interpipe-04" 4 none none,
        Event.setState none GstState.GST_STATE_PLAYING,
        Event.launch 1 "interpipe-05" 5 none (some 4),
        Event.setState (some 4) GstState.GST_STATE_PLAYING,
        Event.launch 2 "interpipe-06" 6 none (some 5),
        Event.setState (some 5) GstState.GST_STATE_PLAYING,
        Event.setState (some 0) GstState.GST_STATE_NULL,
        Event.setState (some 1) GstState.GST_STATE_NULL,
        Event.setState (some 2) GstState.GST_STATE_NULL,
        Event.unref 0, Event.unref 1, Event.unref 2,
        Event.sleep 3,
        Event.listenTo 0 (some "interpipe-04"), Event.listenTo 1 (some "interpipe-05"),
        Event.listenTo 2 (some "interpipe-06"), Event.listenTo 3 (some "interpipe-07"),
        Event.sleep 5] := by
  refine ⟨by decide, ?_⟩
  set_option maxRecDepth 100000 in decide

/-- C6 (amended): a launch that returns `NULL` during the swap does not stop
the control loop. The `NULL` is stored in the table; the cycle still issues
all three launches, destroys the old generation, resubscribes the four slots
and ends; and every later cycle runs. -/
theorem spawn_failure_ignored (w : World) (fuel : Nat) (s : State) (i : Nat) (hi : i < 3)
    (hfail : w.launch (s.launches + i) = none) (hd : DrainsWithin w fuel) :
    ∃ r pre now infer despawn, rotationCycle w fuel s = some r ∧
      r.2 = [Event.sleep 5, Event.listenTo 0 none, Event.listenTo 1 none,
          Event.listenTo 2 none, Event.listenTo 3 none]
        ++ (pre ++ [Event.poll now infer false])
        ++ [Event.launch 0 (interpipeName (chanIdx ((s.listen_to_num_base + 4) % SIZE_T_MOD) 0))
              (chanIdx ((s.listen_to_num_base + 4) % SIZE_T_MOD) 0)
              (s.pipe (chanIdx ((s.listen_to_num_base + 4) % SIZE_T_MOD) 0)) (w.launch s.launches),
            Event.setState (w.launch s.launches) GstState.GST_STATE_PLAYING,
            Event.launch 1 (interpipeName (chanIdx ((s.listen_to_num_base + 4) % SIZE_T_MOD) 1))
              (chanIdx ((s.listen_to_num_base + 4) % SIZE_T_MOD) 1)
              (s.pipe (chanIdx ((s.listen_to_num_base + 4) % SIZE_T_MOD) 1))
              (w.launch (s.launches + 1)),
            Event.setState (w.launch (s.launches + 1)) GstState.GST_STATE_PLAYING,
            Event.launch 2 (interpipeName (chanIdx ((s.listen_to_num_base + 4) % SIZE_T_MOD) 2))
              (chanIdx ((s.listen_to_num_base + 4) % SIZE_T_MOD) 2)
              (s.pipe (chanIdx ((s.listen_to_num_base + 4) % SIZE_T_MOD) 2))
              (w.launch (s.launches + 2)),
            Event.setState (w.launch (s.launches + 2)) GstState.GST_STATE_PLAYING]
        ++ despawn
        ++ [Event.sleep 3,
          Event.listenTo 0 (some (interpipeName (chanIdx ((s.listen_to_num_base + 4) % SIZE_T_MOD) 0))),
          Event.listenTo 1 (some (interpipeName (chanIdx ((s.listen_to_num_base + 4) % SIZE_T_MOD) 1))),
          Event.listenTo 2 (some (interpipeName (chanIdx ((s.listen_to_num_base + 4) % SIZE_T_MOD) 2))),
          Event.listenTo 3 (some (interpipeName (chanIdx ((s.listen_to_num_base + 4) % SIZE_T_MOD) 3)))] ∧
      (∀ e, e ∈ despawn → (∃ p, e = Event.setState (some p) GstState.GST_STATE_NULL) ∨
        (∃ p, e = Event.unref p)) ∧
      r.1.pipe (chanIdx ((s.listen_to_num_base + 4) % SIZE_T_MOD) i) = none ∧
      (∀ k, ∃ r1, runCycles w fuel k r.1 = some r1) := by
  obtain ⟨r, hr⟩ := rotationCycle_isSome w fuel hd s
  obtain ⟨pre, now, infer, despawn, hlog, _, _, hdes⟩ := rotationCycle_log w fuel s r hr
  refine ⟨r, pre, now, infer, despawn, hr, ?_, hdes, ?_, runCycles_isSome w fuel hd r.1⟩
  · rw [hlog, launchLoop_log]
    simp only [setPolls_base, setPolls_pipe, setPolls_launches, unsubscribePhase_base,
      (unsubscribePhase_fields s).1, (unsubscribePhase_fields s).2.1]
  · obtain ⟨n, l2, _, rfl⟩ := rotationCycle_some w fuel s r hr
    rw [swapPhase_pipe]
    simp only [setPolls_base, setPolls_pipe, setPolls_launches, unsubscribePhase_base,
      (unsubscribePhase_fields s).1, (unsubscribePhase_fields s).2.1]
    have hcases : i = 0 ∨ i = 1 ∨ i = 2 := by omega
    have hne : ∀ a b, a < 8 → b < 8 → a ≠ b →
        chanIdx ((s.listen_to_num_base + 4) % SIZE_T_MOD) a ≠
          chanIdx ((s.listen_to_num_base + 4) % SIZE_T_MOD) b :=
      fun a b ha hb hab => chanIdx_ne _ a b ha hb hab
    rcases hcases with h | h | h <;> subst h
    · simp [hne 0 4, hne 0 5, hne 0 6, hne 0 7, hne 0 2, hne 0 1]
      simpa using hfail
    · simp [hne 1 4, hne 1 5, hne 1 6, hne 1 7, hne 1 2]
      exact hfail
    · simp [hne 2 4, hne 2 5, hne 2 6, hne 2 7]
      exact hfail

/-- Witness of C6 (amended): the first cycle of `failWorld`, whose first
launch fails. -/
theorem spawn_failure_ignored_witness :
    (0 : Nat) < 3 ∧ failWorld.launch ((startUp failWorld).1.launches + 0) = none ∧
    DrainsWithin failWorld 1 ∧
    ∃ r, rotationCycle failWorld 1 (startUp failWorld).1 = some r ∧
      r.1.pipe 4 = none ∧ (∀ k, ∃ r1, runCycles failWorld 1 k r.1 = some r1) := by
  have hd : DrainsWithin failWorld 1 := by
    intro n
    exact ⟨0, by decide, by show pollAgain ⟨1, 0⟩ ⟨0, 0⟩ = false; decide⟩
  have hf : failWorld.launch ((startUp failWorld).1.launches + 0) = none := by decide
  obtain ⟨r, _, _, _, _, hr, _, _, hp, hk⟩ :=
    spawn_failure_ignored failWorld 1 (startUp failWorld).1 0 (by decide) hf hd
  exact ⟨by decide, hf, hd, r, hr, hp, hk⟩

/-! ## Clean-up -/

theorem forLoop_mem_of (body : Nat → State → State × List Event) :
    ∀ (n : Nat) (s : State) (i : Nat), i < n →
      ∀ e, e ∈ (body i (forLoop body i s).1).2 → e ∈ (forLoop body n s).2 := by
  intro n
  induction n with
  | zero => intro s i hi; omega
  | succ n ih =>
    intro s i hi e he
    simp only [forLoop, List.mem_append]
    by_cases hin : i = n
    · subst hin
      exact Or.inr he
    · exact Or.inl (ih s i (by omega) e he)

theorem stopLoop_state (s : State) : ∀ n, (forLoop stopStep n s).1 = s := by
  intro n
  induction n with
  | zero => rfl
  | succ n ih => simp only [forLoop, stopStep, stopAt_state, ih]

theorem unrefLoop_pipe (s : State) :
    ∀ n c, (forLoop unrefStep n s).1.pipe c = if c < n then none else s.pipe c := by
  intro n
  induction n with
  | zero => intro c; simp [forLoop]
  | succ n ih =>
    intro c
    simp only [forLoop, unrefStep, unrefAt_pipe, ih]
    split_ifs <;> first | rfl | omega

theorem unrefLoop_listenTo (s : State) : ∀ n, (forLoop unrefStep n s).1.listenTo = s.listenTo := by
  intro n
  induction n with
  | zero => rfl
  | succ n ih => simp only [forLoop, unrefStep, (unrefAt_fields _ _).2.1, ih]

theorem teardown_mem (s : State) (e : Event) (h : e ∈ (teardown s).2) :
    e = Event.mainLoopRun ∨ e = Event.inferSetState GstState.GST_STATE_NULL ∨
    e = Event.inferUnref ∨ (∃ p, e = Event.setState (some p) GstState.GST_STATE_NULL) ∨
    (∃ p, e = Event.unref p) := by
  simp only [teardown, List.mem_append, List.mem_cons, List.mem_singleton, List.not_mem_nil,
    or_false] at h
  rcases h with ((h | h) | h) | h
  · rcases h with h | h
    · exact Or.inl h
    · exact Or.inr (Or.inl h)
  · obtain ⟨i, s1, _, hmem⟩ := forLoop_mem _ _ _ _ h
    obtain ⟨p, _, hp⟩ := stopAt_mem _ _ _ hmem
    exact Or.inr (Or.inr (Or.inr (Or.inl ⟨p, hp⟩)))
  · exact Or.inr (Or.inr (Or.inl h))
  · obtain ⟨i, s1, _, hmem⟩ := forLoop_mem _ _ _ _ h
    obtain ⟨p, _, hp⟩ := unrefAt_mem _ _ _ hmem
    exact Or.inr (Or.inr (Or.inr (Or.inr ⟨p, hp⟩)))

/-- Counterexample to C7 as stated: the clean-up applied to the state right
after start-up leaves slot 0 listening to `interpipe-00`, and its commands are
the stop and the release of the pipelines only. -/
theorem teardown_counterexample :
    (teardown (startUp steadyWorld).1).1.listenTo 0 = some "interpipe-00" ∧
    (teardown (startUp steadyWorld).1).1.listenTo 0 ≠ none ∧
    (teardown (startUp steadyWorld).1).2 =
      [Event.mainLoopRun, Event.inferSetState GstState.GST_STATE_NULL,
        Event.setState (some 0) GstState.GST_STATE_NULL,
        Event.setState (some 1) GstState.GST_STATE_NULL,
        Event.setState (some 2) GstState.GST_STATE_NULL,
        Event.inferUnref, Event.unref 0, Event.unref 1, Event.unref 2] := by
  refine ⟨by decide, by decide, by decide⟩

/-- C7 (amended): from any state of the table and of the slots, the clean-up
ends with all 8 table entries null; every producer that was live is set to
`GST_STATE_NULL` and unreferenced, and so is the inference pipeline; the
`listen-to` of every slot is left as it was, no command is sent to a slot. -/
theorem teardown_destroys_producers (s : State) :
    (∀ c, c < 8 → (teardown s).1.pipe c = none) ∧
    (∀ c p, c < 8 → s.pipe c = some p →
      Event.setState (some p) GstState.GST_STATE_NULL ∈ (teardown s).2 ∧
      Event.unref p ∈ (teardown s).2) ∧
    Event.inferSetState GstState.GST_STATE_NULL ∈ (teardown s).2 ∧
    Event.inferUnref ∈ (teardown s).2 ∧
    (teardown s).1.listenTo = s.listenTo ∧
    (∀ slot nm, Event.listenTo slot nm ∉ (teardown s).2) := by
  refine ⟨?_, ?_, ?_, ?_, ?_, ?_⟩
  · intro c hc
    simp only [teardown, unrefLoop_pipe, PIPE_NUM_2, hc, if_true]
  · intro c p hc hp
    constructor
    · have : Event.setState (some p) GstState.GST_STATE_NULL ∈ (forLoop stopStep PIPE_NUM_2 s).2 := by
        apply forLoop_mem_of stopStep PIPE_NUM_2 s c hc
        simp [stopLoop_state, stopStep, stopAt, hp]
      simp [teardown, this]
    · have : Event.unref p ∈
          (forLoop unrefStep PIPE_NUM_2 (forLoop stopStep PIPE_NUM_2 s).1).2 := by
        apply forLoop_mem_of unrefStep PIPE_NUM_2 _ c hc
        have hpc : (forLoop unrefStep c (forLoop stopStep PIPE_NUM_2 s).1).1.pipe c = some p := by
          rw [unrefLoop_pipe, stopLoop_state]; simp [hp]
        simp [unrefStep, unrefAt, hpc]
      simp [teardown, this]
  · simp [teardown]
  · simp [teardown]
  · simp only [teardown, unrefLoop_listenTo, stopLoop_state]
  · intro slot nm hmem
    rcases teardown_mem s _ hmem with h | h | h | ⟨p, h⟩ | ⟨p, h⟩ <;> cases h

/-- C8: unsubscribing a slot whose `listen-to` is already null leaves the
state as it is; the two guarded destroy statements at a table index whose
entry is null leave the state as it is and issue no command; each of the
three operations, applied a second time, gives the state of the first
application, and the second destroy issues no command. -/
theorem unsubscribe_despawn_idempotent (s : State) (i idx : Nat) :
    (s.listenTo i = none → (unsubscribe i s).1 = s) ∧
    (s.pipe idx = none → stopAt idx s = (s, []) ∧ unrefAt idx s = (s, [])) ∧
    (unsubscribe i (unsubscribe i s).1).1 = (unsubscribe i s).1 ∧
    (stopAt idx (stopAt idx s).1).1 = (stopAt idx s).1 ∧
    (unrefAt idx (unrefAt idx s).1).1 = (unrefAt idx s).1 ∧
    (unrefAt idx (stopAt idx (unrefAt idx (stopAt idx s).1).1).1)
      = ((unrefAt idx (stopAt idx s).1).1, []) := by
  have hu : ∀ t : State, t.pipe idx = none → unrefAt idx t = (t, []) := by
    intro t ht
    simp [unrefAt, ht]
  have hst : ∀ t : State, t.pipe idx = none → stopAt idx t = (t, []) := by
    intro t ht
    simp [stopAt, ht]
  have hnull : (unrefAt idx s).1.pipe idx = none := by rw [unrefAt_pipe]; simp
  refine ⟨?_, fun h => ⟨hst s h, hu s h⟩, ?_, ?_, ?_, ?_⟩
  · intro h
    cases s with
    | mk b l p la po =>
      simp only [unsubscribe, State.mk.injEq, true_and, and_true]
      funext j
      simp only [setAt]
      split_ifs with hj
      · subst hj; exact h.symm
      · rfl
  · simp only [unsubscribe, State.mk.injEq, true_and, and_true]
    funext j
    simp only [setAt]
    split_ifs <;> rfl
  · simp only [stopAt_state]
  · rw [hu _ hnull]
  · simp only [stopAt_state]
    rw [hu _ hnull]

/-- Witness of C8: the declared initial state, where slot 1 has no
`listen-to` and `pipe[5]` is null. -/
theorem unsubscribe_despawn_idempotent_witness :
    initState.listenTo 1 = none ∧ (unsubscribe 1 initState).1 = initState ∧
    initState.pipe 5 = none ∧ stopAt 5 initState = (initState, []) ∧
    unrefAt 5 initState = (initState, []) := by
  have h := unsubscribe_despawn_idempotent initState 1 5
  exact ⟨rfl, h.1 rfl, rfl, (h.2.1 rfl).1, (h.2.1 rfl).2⟩

/-- Witness of C7 (amended): the clean-up after the first cycle of
`steadyWorld` nulls `pipe[4]` and keeps the `listen-to` of slot 0. -/
theorem teardown_destroys_producers_witness :
    (4 : Nat) < 8 ∧ (startUp steadyWorld).1.pipe 0 = some 0 ∧
    (teardown (startUp steadyWorld).1).1.pipe 0 = none ∧
    Event.unref 0 ∈ (teardown (startUp steadyWorld).1).2 ∧
    (teardown (startUp steadyWorld).1).1.listenTo = (startUp steadyWorld).1.listenTo := by
  have h := teardown_destroys_producers (startUp steadyWorld).1
  have hp : (startUp steadyWorld).1.pipe 0 = some 0 := by decide
  exact ⟨by decide, hp, h.1 0 (by decide), (h.2.1 0 0 (by decide) hp).2, h.2.2.2.2.1⟩

/-! ## Number of cycles -/

theorem cyclesStarted_append (a b : List Event) :
    cyclesStarted (a ++ b) = cyclesStarted a + cyclesStarted b := by
  simp [cyclesStarted, List.count_append]

theorem cyclesStarted_eq_zero (l : List Event) (h : Event.sleep 5 ∉ l) : cyclesStarted l = 0 := by
  simpa [cyclesStarted, List.count_eq_zero] using h

theorem rotationCycle_cycles (w : World) (fuel : Nat) (s : State) (r : State × List Event)
    (h : rotationCycle w fuel s = some r) : cyclesStarted r.2 = 1 := by
  obtain ⟨pre, now, infer, despawn, hlog, _, hpre, hdes⟩ := rotationCycle_log w fuel s r h
  have h1 : cyclesStarted pre = 0 := by
    apply cyclesStarted_eq_zero
    intro hmem
    obtain ⟨a, b, hab⟩ := hpre _ hmem
    cases hab
  have h2 : cyclesStarted despawn = 0 := by
    apply cyclesStarted_eq_zero
    intro hmem
    rcases hdes _ hmem with ⟨p, hp⟩ | ⟨p, hp⟩ <;> cases hp
  rw [hlog, launchLoop_log]
  simp only [cyclesStarted_append, h1, h2]
  simp [cyclesStarted]

theorem runCycles_cycles (w : World) (fuel : Nat) (s : State) :
    ∀ (k : Nat) (r : State × List Event), runCycles w fuel k s = some r → cyclesStarted r.2 = k := by
  intro k
  induction k with
  | zero =>
    intro r h
    simp only [runCycles, Option.some.injEq] at h
    subst h
    rfl
  | succ k ih =>
    intro r h
    obtain ⟨r1, r2, h1, h2, rfl⟩ := runCycles_succ_some w fuel k s r h
    rw [cyclesStarted_append, ih r1 h1, rotationCycle_cycles w fuel r1.1 r2 h2]

theorem startUp_cycles (w : World) : cyclesStarted (startUp w).2 = 0 := by
  simp [cyclesStarted, startUp, forLoop, listenInit, launchFirst, PIPE_NUM, RTSP_NUM]

theorem teardown_cycles (s : State) : cyclesStarted (teardown s).2 = 0 := by
  apply cyclesStarted_eq_zero
  intro hmem
  rcases teardown_mem s _ hmem with h | h | h | ⟨p, h⟩ | ⟨p, h⟩ <;> cases h

theorem main_cycles (w : World) (fuel : Nat) (hd : DrainsWithin w fuel) :
    ∃ s1 l1, mainLoop w fuel (startUp w).1 = some (s1, l1) ∧ cyclesStarted l1 = CYCLES ∧
      main w fuel = some ((teardown s1).1, (startUp w).2 ++ l1 ++ (teardown s1).2) ∧
      cyclesStarted ((startUp w).2 ++ l1 ++ (teardown s1).2) = CYCLES := by
  obtain ⟨⟨s1, l1⟩, h1⟩ := runCycles_isSome w fuel hd (startUp w).1 CYCLES
  have hc := runCycles_cycles w fuel _ CYCLES (s1, l1) h1
  have hml : mainLoop w fuel (startUp w).1 = some (s1, l1) := h1
  refine ⟨s1, l1, hml, hc, ?_, ?_⟩
  · unfold main
    simp only [hml]
  · rw [cyclesStarted_append, cyclesStarted_append, startUp_cycles, teardown_cycles]
    simpa using hc

/-- Counterexample to C9 as stated: in `steadyWorld`, with no stop at all,
`main` runs to its end having begun exactly 100 rotation cycles; there is no
101st cycle. -/
theorem hundred_cycles_counterexample :
    DrainsWithin steadyWorld 1 ∧
    ∃ r, main steadyWorld 1 = some r ∧ cyclesStarted r.2 = 100 ∧ ¬ (101 ≤ cyclesStarted r.2) := by
  obtain ⟨s1, l1, _, _, hmain, hc⟩ := main_cycles steadyWorld 1 steadyWorld_drains
  refine ⟨steadyWorld_drains, _, hmain, hc, ?_⟩
  rw [hc]
  decide

/-- C9 (amended): the rotation loop is bounded. When every drain wait ends,
the scheduler performs an `n`-th rotation cycle for every `n` from 1 to 100;
after the 100th cycle no further cycle begins: `main` goes on to
`g_main_loop_run` and the clean-up, and ends. -/
theorem scheduler_runs_hundred_cycles (w : World) (fuel : Nat) (hd : DrainsWithin w fuel) :
    CYCLES = 100 ∧
    (∀ n, n ≤ CYCLES → ∃ r, runCycles w fuel n (startUp w).1 = some r ∧ cyclesStarted r.2 = n) ∧
    ∃ s1 l1, mainLoop w fuel (startUp w).1 = some (s1, l1) ∧ cyclesStarted l1 = 100 ∧
      main w fuel = some ((teardown s1).1, (startUp w).2 ++ l1 ++ (teardown s1).2) ∧
      cyclesStarted ((startUp w).2 ++ l1 ++ (teardown s1).2) = 100 := by
  refine ⟨rfl, ?_, main_cycles w fuel hd⟩
  intro n _
  obtain ⟨r, hr⟩ := runCycles_isSome w fuel hd (startUp w).1 n
  exact ⟨r, hr, runCycles_cycles w fuel _ n r hr⟩

/-- Witness of C9 (amended): `steadyWorld`. -/
theorem scheduler_runs_hundred_cycles_witness :
    DrainsWithin steadyWorld 1 ∧
    ∃ s1 l1, mainLoop steadyWorld 1 (startUp steadyWorld).1 = some (s1, l1) ∧
      cyclesStarted l1 = 100 ∧
      main steadyWorld 1 =
        some ((teardown s1).1, (startUp steadyWorld).2 ++ l1 ++ (teardown s1).2) ∧
      cyclesStarted ((startUp steadyWorld).2 ++ l1 ++ (teardown s1).2) = 100 :=
  ⟨steadyWorld_drains, (scheduler_runs_hundred_cycles steadyWorld 1 steadyWorld_drains).2.2⟩

theorem tickWorld_usec (j : Nat) : usecOf (tickWorld.clock j) = 40000 * (j : Int) := by
  simp only [usecOf, tickWorld]
  omega

/-- Counterexample to C10 as stated: in `tickWorld` the heartbeat is never
written again and the clock advances on every pass, yet the drain loop does
not poll for ever: the sixth pass (age 200000) leaves it. -/
theorem stale_heartbeat_counterexample :
    (∀ j, tickWorld.heartbeat j = tickWorld.heartbeat 0) ∧
    (∀ j, usecOf (tickWorld.clock j) < usecOf (tickWorld.clock (j + 1))) ∧
    (drainLoop tickWorld 6 0).map Prod.fst = some 6 ∧
    drainLoop tickWorld 6 0 ≠ none := by
  refine ⟨fun _ => rfl, ?_, by decide, by decide⟩
  intro j
  rw [tickWorld_usec, tickWorld_usec]
  push_cast
  omega

theorem age_grows (w : World) (start : Nat) (d : Int)
    (hstale : ∀ j, w.heartbeat (start + j) = w.heartbeat start)
    (h0 : 0 ≤ ageUsec (w.clock start) (w.heartbeat start)) :
    ∀ N : Nat, (∀ j, j < N → usecOf (w.clock (start + j)) + d ≤ usecOf (w.clock (start + (j + 1)))) →
      (N : Int) * d ≤ ageUsec (w.clock (start + N)) (w.heartbeat (start + N)) := by
  intro N
  induction N with
  | zero => intro _; simpa using h0
  | succ N ih =>
    intro hadv
    have h1 := ih (fun j hj => hadv j (by omega))
    have h2 := hadv N (by omega)
    rw [hstale] at h1 ⊢
    simp only [ageUsec] at h1 ⊢
    push_cast
    linarith

/-- C10 (amended): the drain loop polls for ever exactly as long as every
pass finds the heartbeat fresh (age below 200000 microseconds): then it is
still polling after any number of passes. With a heartbeat that is never
written again and a clock that advances by at least `d > 0` microseconds per
pass, it does not block: it leaves within `N + 1` passes as soon as
`N * d ≥ 200000`. -/
theorem drain_blocks_only_while_fresh (w : World) (start : Nat) :
    ((∀ j, SampleOk (w.clock (start + j)) (w.heartbeat (start + j)) ∧
        ageUsec (w.clock (start + j)) (w.heartbeat (start + j)) < 200000) →
      ∀ n, drainLoop w n start = none) ∧
    (∀ (N : Nat) (d : Int), 200000 ≤ (N : Int) * d →
      (∀ j, w.heartbeat (start + j) = w.heartbeat start) →
      0 ≤ ageUsec (w.clock start) (w.heartbeat start) →
      (∀ j, j < N → usecOf (w.clock (start + j)) + d ≤ usecOf (w.clock (start + (j + 1)))) →
      SampleOk (w.clock (start + N)) (w.heartbeat (start + N)) →
      ∃ m log, m ≤ N ∧ drainLoop w (N + 1) start = some (start + m + 1, log)) := by
  refine ⟨?_, ?_⟩
  · intro h n
    exact drainLoop_none w n start
      (fun j _ => (pollAgain_iff_age _ _ (h j).1).2 (h j).2)
  · intro N d hNd hstale h0 hadv hok
    have hage := age_grows w start d hstale h0 N hadv
    have hlast : pollAgain (w.clock (start + N)) (w.heartbeat (start + N)) = false := by
      have := (pollAgain_iff_age _ _ hok).not.2 (by omega)
      simpa using this
    obtain ⟨r, hr⟩ := drainLoop_isSome_of_exit w (N + 1) start ⟨N, by omega, hlast⟩
    obtain ⟨m, pre, hm, rfl, _⟩ := drainLoop_some w (N + 1) start r hr
    exact ⟨m, _, by omega, hr⟩

/-- Witness of C10 (amended): `steadyWorld` read with a fresh heartbeat never
leaves; `tickWorld` (stale heartbeat, 40 ms per pass) leaves within 6 passes. -/
theorem drain_blocks_only_while_fresh_witness :
    (200000 : Int) ≤ ((5 : Nat) : Int) * 40000 ∧
    (∀ j, tickWorld.heartbeat (0 + j) = tickWorld.heartbeat 0) ∧
    0 ≤ ageUsec (tickWorld.clock 0) (tickWorld.heartbeat 0) ∧
    (∀ j, j < 5 → usecOf (tickWorld.clock (0 + j)) + 40000 ≤ usecOf (tickWorld.clock (0 + (j + 1)))) ∧
    SampleOk (tickWorld.clock (0 + 5)) (tickWorld.heartbeat (0 + 5)) ∧
    (∃ m log, m ≤ 5 ∧ drainLoop tickWorld (5 + 1) 0 = some (0 + m + 1, log)) ∧
    (∀ j, SampleOk (freshWorld.clock (0 + j)) (freshWorld.heartbeat (0 + j)) ∧
        ageUsec (freshWorld.clock (0 + j)) (freshWorld.heartbeat (0 + j)) < 200000) ∧
    (∀ n, drainLoop freshWorld n 0 = none) := by
  have h1 : (200000 : Int) ≤ ((5 : Nat) : Int) * 40000 := by decide
  have h2 : ∀ j, tickWorld.heartbeat (0 + j) = tickWorld.heartbeat 0 := fun _ => rfl
  have h3 : 0 ≤ ageUsec (tickWorld.clock 0) (tickWorld.heartbeat 0) := by decide
  have h4 : ∀ j, j < 5 →
      usecOf (tickWorld.clock (0 + j)) + 40000 ≤ usecOf (tickWorld.clock (0 + (j + 1))) := by
    intro j _
    rw [tickWorld_usec, tickWorld_usec]
    push_cast
    omega
  have h5 : SampleOk (tickWorld.clock (0 + 5)) (tickWorld.heartbeat (0 + 5)) := by
    simp [SampleOk, tickWorld]
  have h6 : ∀ j, SampleOk (freshWorld.clock (0 + j)) (freshWorld.heartbeat (0 + j)) ∧
      ageUsec (freshWorld.clock (0 + j)) (freshWorld.heartbeat (0 + j)) < 200000 := by
    intro j
    simp [SampleOk, ageUsec, usecOf, freshWorld]
  exact ⟨h1, h2, h3, h4, h5,
    (drain_blocks_only_while_fresh tickWorld 0).2 5 40000 h1 h2 h3 h4 h5,
    h6, (drain_blocks_only_while_fresh freshWorld 0).1 h6⟩

/-! ## The live entries of the table -/

theorem chanIdx_lt (b off : Nat) : chanIdx b off < 8 := by
  unfold chanIdx MUXER_BATCH_SIZE
  omega

theorem startUp_launches (w : World) : (startUp w).1.launches = 3 := by
  simp [startUp, forLoop, listenInit, launchFirst, initState, PIPE_NUM, RTSP_NUM]

theorem startUp_live (w : World) : ∀ i, i < 3 → (startUp w).1.pipe i = w.launch i := by
  intro i hi
  have h : i = 0 ∨ i = 1 ∨ i = 2 := by omega
  rcases h with h | h | h <;> subst h <;>
    simp [startUp, forLoop, listenInit, launchFirst, initState, PIPE_NUM, RTSP_NUM, setAt]

theorem swapPhase_launches (w : World) (s : State) :
    (swapPhase w s).1.launches = s.launches + 3 := by
  simp [swapPhase, forLoop, launchStep, stopOlderStep, unrefOlderStep, resubscribeStep,
    PIPE_NUM, RTSP_NUM, stopAt_state, unrefAt_fields]

theorem rotationCycle_launches (w : World) (fuel : Nat) (s : State) (r : State × List Event)
    (h : rotationCycle w fuel s = some r) : r.1.launches = s.launches + 3 := by
  obtain ⟨n, l2, _, rfl⟩ := rotationCycle_some w fuel s r h
  rw [swapPhase_launches, setPolls_launches, (unsubscribePhase_fields s).2.1]

/-- After `k` completed cycles the table entry of slot `i < 3` of generation
`k` holds the result of launch number `3 * k + i`, and `3 * (k + 1)` launches
have been made. -/
theorem runCycles_live (w : World) (fuel : Nat) :
    ∀ (k : Nat) (r : State × List Event), runCycles w fuel k (startUp w).1 = some r →
      r.1.launches = 3 * (k + 1) ∧
      ∀ i, i < 3 → r.1.pipe ((4 * k + i) % 8) = w.launch (3 * k + i) := by
  intro k
  induction k with
  | zero =>
    intro r h
    simp only [runCycles, Option.some.injEq] at h
    subst h
    refine ⟨startUp_launches w, ?_⟩
    intro i hi
    rw [show (4 * 0 + i) % 8 = i by omega, show 3 * 0 + i = i by omega]
    exact startUp_live w i hi
  | succ k ih =>
    intro r h
    obtain ⟨r1, r2, h1, h2, rfl⟩ := runCycles_succ_some w fuel k _ r h
    obtain ⟨hl1, _⟩ := ih r1 h1
    have hinv := runCycles_inv w fuel 0 _ (startUp_inv w) k r1 h1
    rw [Nat.zero_add] at hinv
    refine ⟨?_, ?_⟩
    · have := rotationCycle_launches w fuel r1.1 r2 h2
      simp only [this, hl1]
      omega
    · intro i hi
      have := rotationCycle_live w fuel k r1.1 r2 hinv h2 i hi
      rw [this, hl1]

theorem startUp_launch_idx (w : World) (t : Nat) (nm : String) (idx : Nat)
    (old new : Option Handle) (h : Event.launch t nm idx old new ∈ (startUp w).2) :
    idx < 8 := by
  simp [startUp, forLoop, listenInit, launchFirst, initState, PIPE_NUM, RTSP_NUM] at h
  rcases h with h | h | h
  · obtain ⟨_, _, rfl, _⟩ := h; decide
  · obtain ⟨_, _, rfl, _⟩ := h; decide
  · obtain ⟨_, _, rfl, _⟩ := h; decide

theorem rotationCycle_launch_idx (w : World) (fuel : Nat) (s : State) (r : State × List Event)
    (h : rotationCycle w fuel s = some r) (t : Nat) (nm : String) (idx : Nat)
    (old new : Option Handle) (hmem : Event.launch t nm idx old new ∈ r.2) : idx < 8 := by
  obtain ⟨pre, now, infer, despawn, hlog, _, hpre, hdes⟩ := rotationCycle_log w fuel s r h
  rw [hlog, launchLoop_log] at hmem
  simp only [List.mem_append, List.mem_cons, List.mem_singleton] at hmem
  rcases hmem with (((hm | hm) | hm) | hm) | hm
  · simp at hm
  · rcases hm with hm | hm
    · obtain ⟨a, b, hab⟩ := hpre _ hm
      cases hab
    · simp at hm
  · simp only [Event.launch.injEq, List.not_mem_nil, or_false] at hm
    rcases hm with hm | hm | hm | hm | hm | hm
    · obtain ⟨_, _, rfl, _⟩ := hm
      exact chanIdx_lt _ _
    · cases hm
    · obtain ⟨_, _, rfl, _⟩ := hm
      exact chanIdx_lt _ _
    · cases hm
    · obtain ⟨_, _, rfl, _⟩ := hm
      exact chanIdx_lt _ _
    · cases hm
  · rcases hdes _ hm with ⟨p, hp⟩ | ⟨p, hp⟩ <;> cases hp
  · simp at hm

theorem runCycles_launch_idx (w : World) (fuel : Nat) (s0 : State) :
    ∀ (k : Nat) (r : State × List Event), runCycles w fuel k s0 = some r →
      ∀ (t : Nat) (nm : String) (idx : Nat) (old new : Option Handle),
        Event.launch t nm idx old new ∈ r.2 → idx < 8 := by
  intro k
  induction k with
  | zero =>
    intro r h t nm idx old new hmem
    simp only [runCycles, Option.some.injEq] at h
    subst h
    simp at hmem
  | succ k ih =>
    intro r h t nm idx old new hmem
    obtain ⟨r1, r2, h1, h2, rfl⟩ := runCycles_succ_some w fuel k _ r h
    rcases List.mem_append.mp hmem with hm | hm
    · exact ih r1 h1 t nm idx old new hm
    · exact rotationCycle_launch_idx w fuel r1.1 r2 h2 t nm idx old new hm

theorem filter_range8_of_gen (p : Nat → Bool) (a : Nat) (ha : a = 0 ∨ a = 4)
    (hyes : ∀ i, i < 3 → p (a + i) = true)
    (hno : ∀ c, c < 8 → (∀ i, i < 3 → c ≠ a + i) → p c = false) :
    (List.range 8).filter p = [a, a + 1, a + 2] := by
  have hr8 : List.range 8 = [0, 1, 2, 3, 4, 5, 6, 7] := by decide
  rcases ha with rfl | rfl
  · have y0 := hyes 0 (by omega); have y1 := hyes 1 (by omega); have y2 := hyes 2 (by omega)
    have n3 := hno 3 (by omega) (by intro i hi; omega)
    have n4 := hno 4 (by omega) (by intro i hi; omega)
    have n5 := hno 5 (by omega) (by intro i hi; omega)
    have n6 := hno 6 (by omega) (by intro i hi; omega)
    have n7 := hno 7 (by omega) (by intro i hi; omega)
    simp only [Nat.zero_add, Nat.add_zero] at y0 y1 y2
    simp [hr8, List.filter, y0, y1, y2, n3, n4, n5, n6, n7]
  · have y0 := hyes 0 (by omega); have y1 := hyes 1 (by omega); have y2 := hyes 2 (by omega)
    have n0 := hno 0 (by omega) (by intro i hi; omega)
    have n1 := hno 1 (by omega) (by intro i hi; omega)
    have n2 := hno 2 (by omega) (by intro i hi; omega)
    have n3 := hno 3 (by omega) (by intro i hi; omega)
    have n7 := hno 7 (by omega) (by intro i hi; omega)
    simp only [Nat.add_zero] at y0
    norm_num at y1 y2
    simp [hr8, List.filter, y0, y1, y2, n0, n1, n2, n3, n7]


/-- C11: when every launch returns a pointer, after start-up (`k = 0`) and
after every completed rotation cycle `k ≥ 1` the table entries that hold a
non-null pointer are exactly those at `(4k + i) mod 8`, `i = 0, 1, 2`: three
live producers, each the result of a launch of generation `k` (launch number
`3k + i`), the five other entries null, no entry at an index of 8 or more;
and every table index the scheduler uses is below 8. -/
theorem live_set_exact (w : World) (fuel k : Nat) (hl : ∀ n, w.launch n ≠ none) :
    (DrainsWithin w fuel → ∃ r, runCycles w fuel k (startUp w).1 = some r) ∧
    (∀ s log, runCycles w fuel k (startUp w).1 = some (s, log) →
      (∀ c, s.pipe c ≠ none ↔ ∃ i, i < 3 ∧ c = (4 * k + i) % 8) ∧
      (∀ i, i < 3 → s.pipe ((4 * k + i) % 8) = w.launch (3 * k + i)) ∧
      liveIndices s = [(4 * k) % 8, (4 * k) % 8 + 1, (4 * k) % 8 + 2] ∧
      (liveIndices s).length = 3 ∧
      (nullIndices s).length = 5 ∧
      (∀ c, 8 ≤ c → s.pipe c = none) ∧
      (∀ (t : Nat) (nm : String) (idx : Nat) (old new : Option Handle),
        Event.launch t nm idx old new ∈ (startUp w).2 ++ log → idx < 8)) ∧
    (∀ b off, chanIdx b off < 8) := by
  refine ⟨fun hd => runCycles_isSome w fuel hd _ k, ?_, chanIdx_lt⟩
  intro s log hrun
  have hinv := runCycles_inv w fuel 0 _ (startUp_inv w) k (s, log) hrun
  rw [Nat.zero_add] at hinv
  obtain ⟨_, hlive⟩ := runCycles_live w fuel k (s, log) hrun
  have hiff : ∀ c, s.pipe c ≠ none ↔ ∃ i, i < 3 ∧ c = (4 * k + i) % 8 := by
    intro c
    constructor
    · exact hinv.2.2 c
    · rintro ⟨i, hi, rfl⟩
      rw [hlive i hi]
      exact hl _
  have ha : (4 * k) % 8 = 0 ∨ (4 * k) % 8 = 4 := by omega
  have hgen : ∀ i, i < 3 → (4 * k + i) % 8 = (4 * k) % 8 + i := by intro i hi; omega
  have hyes : ∀ i, i < 3 → s.pipe ((4 * k) % 8 + i) ≠ none := by
    intro i hi
    rw [← hgen i hi]
    exact (hiff _).2 ⟨i, hi, rfl⟩
  have hno : ∀ c, (∀ i, i < 3 → c ≠ (4 * k) % 8 + i) → s.pipe c = none := by
    intro c hc
    by_contra hne
    obtain ⟨i, hi, rfl⟩ := (hiff c).1 hne
    exact hc i hi (hgen i hi)
  have hlivelist : liveIndices s = [(4 * k) % 8, (4 * k) % 8 + 1, (4 * k) % 8 + 2] := by
    apply filter_range8_of_gen _ _ ha
    · intro i hi
      exact Option.isSome_iff_ne_none.2 (hyes i hi)
    · intro c _ hc
      simp [hno c hc]
  have hnulllen : (nullIndices s).length = 5 := by
    have hsplit : ∀ l : List Nat,
        (l.filter (fun c => (s.pipe c).isSome)).length +
          (l.filter (fun c => (s.pipe c).isNone)).length = l.length := by
      intro l
      induction l with
      | nil => rfl
      | cons a l ih =>
        cases hpa : s.pipe a <;> simp [List.filter, hpa] <;> omega
    have h8 := hsplit (List.range PIPE_NUM_2)
    have h3 : ((List.range PIPE_NUM_2).filter (fun c => (s.pipe c).isSome)).length = 3 := by
      have := congrArg List.length hlivelist
      simpa [liveIndices] using this
    have hlen : (List.range PIPE_NUM_2).length = 8 := by simp [PIPE_NUM_2]
    unfold nullIndices
    omega
  refine ⟨hiff, hlive, hlivelist, by rw [hlivelist]; rfl, hnulllen, ?_, ?_⟩
  · intro c hc
    exact hno c (by intro i hi; omega)
  · intro t nm idx old new hmem
    rcases List.mem_append.mp hmem with hm | hm
    · exact startUp_launch_idx w t nm idx old new hm
    · exact runCycles_launch_idx w fuel _ k (s, log) hrun t nm idx old new hm

/-- Witness of C11: in `steadyWorld` the live entries are 0, 1, 2 right after
start-up and 4, 5, 6 after the first cycle, holding the pointers of launches
3, 4 and 5. -/
theorem live_set_exact_witness :
    (∀ n, steadyWorld.launch n ≠ none) ∧ DrainsWithin steadyWorld 1 ∧
    liveIndices (startUp steadyWorld).1 = [0, 1, 2] ∧
    ∃ s log, runCycles steadyWorld 1 1 (startUp steadyWorld).1 = some (s, log) ∧
      liveIndices s = [4, 5, 6] ∧ (nullIndices s).length = 5 ∧
      s.pipe 4 = some 3 ∧ s.pipe 5 = some 4 ∧ s.pipe 6 = some 5 := by
  have hl : ∀ n, steadyWorld.launch n ≠ none := by intro n; simp [steadyWorld]
  obtain ⟨_, h0, _⟩ := live_set_exact steadyWorld 1 0 hl
  obtain ⟨hterm, h1, _⟩ := live_set_exact steadyWorld 1 1 hl
  obtain ⟨⟨s, log⟩, hr⟩ := hterm steadyWorld_drains
  have hs := h1 s log hr
  exact ⟨hl, steadyWorld_drains, (h0 (startUp steadyWorld).1 [] rfl).2.2.1, s, log, hr,
    hs.2.2.1, hs.2.2.2.2.1, hs.2.1 0 (by decide), hs.2.1 1 (by decide), hs.2.1 2 (by decide)⟩

end DeepstreamInterpipe
